import Mathlib

/-!
Verification of the Backup Crawl Engine of gphoto-backup.

The definitions below are a shallow embedding of the Python sources:
`gphotosbackup/__init__.py` (class GPhotosBackup), `gphotosbackup/utils.py`
and the database access layer `gphotosbackup/models.py`.  Machine state
(option rows, database tables, the local file tree) is passed explicitly;
the remote Google Photos service and the network/OS outcomes of individual
byte transfers are supplied as oracles.  All definitions are executable.
-/

set_option maxHeartbeats 1000000

namespace GPB

/-- A JSON scalar as stored in the `options` table (`models.py` stores
`json.dumps` of the value; the values used by the crawler are strings and
integers, and page tokens are modelled as numeric page indexes). -/
inductive JVal where
  | s (v : String)
  | n (v : Nat)
deriving DecidableEq

/-- The per-user rows of the `options` table (the single crawling user is
implicit, so the `user_id` column is dropped). -/
abbrev Opts := List (String × JVal)

/-- `models.DB.get_user_option` with no default: first row for the key. -/
def get_user_option (o : Opts) (k : String) : Option JVal :=
  (o.find? (fun p => decide (p.1 = k))).map (fun p => p.2)

/-- `models.DB.get_user_option` with a default value. -/
def get_user_option_d (o : Opts) (k : String) (d : JVal) : JVal :=
  (get_user_option o k).getD d

/-- `models.DB.set_user_option`: a `none` value deletes the row, otherwise
the row is upserted.  (The upsert is modelled as delete-then-append; row
order is unobservable through `get_user_option` because at most one row per
key ever exists afterwards.) -/
def set_user_option (o : Opts) (k : String) : Option JVal → Opts
  | none => o.filter (fun p => decide (p.1 ≠ k))
  | some v => (o.filter (fun p => decide (p.1 ≠ k))) ++ [(k, v)]

/-- An `os.path` style path: an absolute flag plus components.  Joining a
path onto an absolute right operand discards the left operand, exactly as
`os.path.join` does. -/
structure PPath where
  abs : Bool
  comps : List String
deriving DecidableEq

/-- A relative path from components. -/
def relOf (cs : List String) : PPath := ⟨false, cs⟩

/-- `os.path.join` for two operands. -/
def pjoin (a b : PPath) : PPath :=
  if b.abs then b else ⟨a.abs, a.comps ++ b.comps⟩

/-- `os.path.abspath` relative to a current working directory. -/
def abspath (cwd p : PPath) : PPath :=
  if p.abs then p else pjoin cwd p

/-- Python string concatenation of a suffix onto a path string: the suffix
is appended to the last component (`'a/b' + '.jpg' = 'a/b.jpg'`). -/
def appendLastComp : List String → String → List String
  | [], suf => [suf]
  | [c], suf => [c ++ suf]
  | c :: rest, suf => c :: appendLastComp rest suf

/-- Append a string suffix to a path, as Python `path_string + suffix`. -/
def addSuffix (p : PPath) (suf : String) : PPath :=
  ⟨p.abs, appendLastComp p.comps suf⟩

/-- The local file tree, as the set of paths that exist. -/
abbrev FS := List PPath

/-- `os.path.exists`. -/
def pathExists (fs : FS) (p : PPath) : Bool := decide (p ∈ fs)

/-- Record a path as existing (file creation / `open(.., 'wb')`). -/
def addPath (fs : FS) (p : PPath) : FS := if p ∈ fs then fs else fs ++ [p]

/-- `os.remove` (no effect when absent; callers guard with `os.path.exists`). -/
def removePath (fs : FS) (p : PPath) : FS := fs.filter (fun q => decide (q ≠ p))

/-- One row of the `mediaitems` table. -/
structure MediaRec where
  id : Nat
  user_id : Nat
  mediaitem_uid : String
  mtype : String
  mime_type : String
  product_url : String
  creation_time : String
  original_filename : String
  filename : PPath
  thumbnail : PPath
  width : Option Nat
  height : Option Nat
  last_seen : Nat
deriving DecidableEq

/-- One row of the `albums` table. -/
structure AlbumRec where
  id : Nat
  user_id : Nat
  album_uid : String
  title : String
  atype : String
  product_url : String
  cover_mediaitem_uid : String
  last_seen : Nat
deriving DecidableEq

/-- One row of the `albumitems` table. -/
structure AlbumItemRec where
  id : Nat
  album_uid : String
  mediaitem_uid : String
  last_seen : Nat
deriving DecidableEq

/-- The database: the three record tables with their autoincrement
counters, plus the options table. -/
structure DB where
  mediaitems : List MediaRec
  albums : List AlbumRec
  albumitems : List AlbumItemRec
  nextMediaId : Nat
  nextAlbumId : Nat
  nextAlbumItemId : Nat
  options : Opts
deriving DecidableEq

/-- `models.DB.get_user_mediaitem_by(user_id=.., mediaitem_uid=..)`. -/
def get_user_mediaitem_by_uid (db : DB) (user_id : Nat) (uid : String) :
    Option MediaRec :=
  db.mediaitems.find? (fun r => decide (r.user_id = user_id ∧ r.mediaitem_uid = uid))

/-- `models.DB.get_user_mediaitem_by(user_id=.., filename=..)`. -/
def get_user_mediaitem_by_filename (db : DB) (user_id : Nat) (fn : PPath) :
    Option MediaRec :=
  db.mediaitems.find? (fun r => decide (r.user_id = user_id ∧ r.filename = fn))

/-- `models.DB.add_mediaitem`: insert with the next autoincrement id and
return the new id. -/
def add_mediaitem (db : DB) (r : MediaRec) : DB × Nat :=
  let i := db.nextMediaId
  ({ db with mediaitems := db.mediaitems ++ [{ r with id := i }],
             nextMediaId := i + 1 }, i)

/-- `models.DB.update_mediaitem(id=.., filename=.., thumbnail=.., last_seen=..)`. -/
def update_mediaitem_ftl (db : DB) (i : Nat) (fn th : PPath) (ls : Nat) : DB :=
  { db with mediaitems := db.mediaitems.map (fun r =>
      if r.id = i then { r with filename := fn, thumbnail := th, last_seen := ls } else r) }

/-- `models.DB.update_mediaitem(id=.., thumbnail=.., last_seen=..)`. -/
def update_mediaitem_tl (db : DB) (i : Nat) (th : PPath) (ls : Nat) : DB :=
  { db with mediaitems := db.mediaitems.map (fun r =>
      if r.id = i then { r with thumbnail := th, last_seen := ls } else r) }

/-- `models.DB.get_user_album_by(user_id=.., album_uid=..)`. -/
def get_user_album_by_uid (db : DB) (user_id : Nat) (uid : String) :
    Option AlbumRec :=
  db.albums.find? (fun r => decide (r.user_id = user_id ∧ r.album_uid = uid))

/-- `models.DB.get_user_album_by(user_id=.., id=..)`. -/
def get_user_album_by_id (db : DB) (user_id : Nat) (i : Nat) :
    Option AlbumRec :=
  db.albums.find? (fun r => decide (r.user_id = user_id ∧ r.id = i))

/-- The row with the minimal id strictly greater than `i` (SQL
`WHERE user_id = .. AND id > i ORDER BY id LIMIT 1`), written as a
min-by-id scan so that it does not depend on row order. -/
def album_after : List AlbumRec → Nat → Nat → Option AlbumRec
  | [], _, _ => none
  | r :: rest, user_id, i =>
    let rec' := album_after rest user_id i
    if r.user_id = user_id ∧ i < r.id then
      match rec' with
      | none => some r
      | some m => if r.id ≤ m.id then some r else some m
    else rec'

/-- `models.DB.get_user_album_after`. -/
def get_user_album_after (db : DB) (user_id : Nat) (i : Nat) : Option AlbumRec :=
  album_after db.albums user_id i

/-- `models.DB.add_album`. -/
def add_album (db : DB) (r : AlbumRec) : DB × Nat :=
  let i := db.nextAlbumId
  ({ db with albums := db.albums ++ [{ r with id := i }],
             nextAlbumId := i + 1 }, i)

/-- `models.DB.update_album(id=.., title=.., last_seen=..)`. -/
def update_album_tl (db : DB) (i : Nat) (title : String) (ls : Nat) : DB :=
  { db with albums := db.albums.map (fun r =>
      if r.id = i then { r with title := title, last_seen := ls } else r) }

/-- `models.DB.get_albumitem_by(album_uid=.., mediaitem_uid=..)`. -/
def get_albumitem_by (db : DB) (album_uid mediaitem_uid : String) :
    Option AlbumItemRec :=
  db.albumitems.find? (fun r =>
    decide (r.album_uid = album_uid ∧ r.mediaitem_uid = mediaitem_uid))

/-- `models.DB.add_albumitem`. -/
def add_albumitem (db : DB) (album_uid mediaitem_uid : String) (ls : Nat) :
    DB × Nat :=
  let i := db.nextAlbumItemId
  ({ db with albumitems := db.albumitems ++ [⟨i, album_uid, mediaitem_uid, ls⟩],
             nextAlbumItemId := i + 1 }, i)

/-- `models.DB.update_albumitem(id=.., last_seen=..)`. -/
def update_albumitem_ls (db : DB) (i : Nat) (ls : Nat) : DB :=
  { db with albumitems := db.albumitems.map (fun r =>
      if r.id = i then { r with last_seen := ls } else r) }

/-- `utils.BackupStage`. -/
inductive BackupStage where
  | media_item
  | album
  | album_item
  | end_stage
deriving DecidableEq

/-- The string value of a stage member (`utils.BackupStage(...).value`). -/
def BackupStage.value : BackupStage → String
  | .media_item => "mediaitem"
  | .album => "album"
  | .album_item => "albumitem"
  | .end_stage => "end"

/-- `utils.BackupStage(value)`: `none` models the `ValueError` raised for a
value that is not a member value (note that `"end"` IS a member value). -/
def parseBackupStage : JVal → Option BackupStage
  | .s "mediaitem" => some .media_item
  | .s "album" => some .album
  | .s "albumitem" => some .album_item
  | .s "end" => some .end_stage
  | _ => none

/-- `utils.DownloadStatus`. -/
inductive DownloadStatus where
  | item_and_thumbnail
  | thumbnail_only
  | not_ready
  | already_downloaded
deriving DecidableEq

/-- A remote media item descriptor, with the fields the crawler consumes
(`videoStatus` is `mediaMetadata.video.status`, absent for photos). -/
structure Item where
  id : String
  mimeType : String
  productUrl : String
  filename : String
  baseUrl : String
  creationTime : String
  width : Option Nat
  height : Option Nat
  videoStatus : Option String
deriving DecidableEq

/-- `utils.DownloadInfo`. -/
structure DownloadInfo where
  id : Nat
  mediaitem_uid : String
  creation_time : String
  item_type : String
  base_url : String
  filename : PPath
  original_filename : String
  thumbnail : PPath
  download_status : DownloadStatus
deriving DecidableEq

/-- `utils.THUMBNAILS_FOLDER`. -/
def THUMBNAILS_FOLDER : String := "thumbnails"

/-- `THUMBNAIL_SIZE` from `gphotosbackup/__init__.py`. -/
def THUMBNAIL_SIZE : Nat := 640

/-- The fixed configuration of one `GPhotosBackup` instance. -/
structure Config where
  storagePath : PPath
  userEmail : String
  userId : Nat
  cwd : PPath
  downloadThumbnails : Bool

/-- The whole mutable machine state threaded through the crawler: the
database, the local file tree, the progress-bus lines (`log_queue`), and
the in-memory `current_cycle` counter. -/
structure Sys where
  db : DB
  fs : FS
  logs : List String
  currentCycle : Nat
deriving DecidableEq

/-- `os.path.join(self.storage_path, self.user.email)`, the common prefix
of every path the class builds. -/
def userRoot (cfg : Config) : PPath :=
  pjoin cfg.storagePath (relOf [cfg.userEmail])

/-- `GPhotosBackup.file_exists`: note the argument is joined under the
storage root again, which is a no-op exactly when the argument is already
absolute (as at both call sites). -/
def file_exists (cfg : Config) (fs : FS) (filename : PPath) : Bool :=
  pathExists fs (abspath cfg.cwd (pjoin (userRoot cfg) filename))

/-- Python `s.split(sep)` for a one-character separator, written as
structural recursion on the character list so that concrete evaluation
reduces (`''.split(c) == ['']`, as in Python). -/
def splitOnCharAux (c : Char) : List Char → List Char → List String
  | [], acc => [String.mk acc.reverse]
  | x :: xs, acc =>
    if x = c then String.mk acc.reverse :: splitOnCharAux c xs []
    else splitOnCharAux c xs (x :: acc)

/-- Python `s.split(c)`. -/
def splitOnChar (c : Char) (s : String) : List String := splitOnCharAux c s.data []

/-- Python `s.lower()`. -/
def lowerStr (s : String) : String := String.mk (s.data.map Char.toLower)

/-- `item['mimeType'].split('/')[0].lower()`. -/
def itemType (mime : String) : String := lowerStr ((splitOnChar '/' mime).headD "")

/-- The destination subfolder derived from the creation timestamp in
`GPhotosBackup.generate_filename`: `<year>/<month>` when the timestamp
splits on `-` into more than one part, else `other`. -/
def creationFolder (ct : String) : PPath :=
  if ct = "" then relOf ["other"]
  else
    match splitOnChar '-' ct with
    | p0 :: p1 :: _ => relOf [p0, p1]
    | _ => relOf ["other"]

/-- Python `s.rsplit('.', 1)`: the stem and, when a dot exists, the
extension after the last dot. -/
def rsplitExt (s : String) : String × Option String :=
  match (splitOnChar '.' s).reverse with
  | [] => (s, none)
  | [_] => (s, none)
  | last :: rest => (String.intercalate "." rest.reverse, some last)

/-- The candidate filename with `-i` inserted before the extension
(`filename_parts[0] += '-i'; '.'.join(filename_parts)`). -/
def indexedName (orig : String) (i : Nat) : String :=
  match rsplitExt orig with
  | (stem, none) => stem ++ "-" ++ toString i
  | (stem, some ext) => stem ++ "-" ++ toString i ++ "." ++ ext

/-- The collision test of the `while` loop in `generate_filename`: a file
of the candidate name exists in the destination folder, or a MediaItem row
of this user has the candidate as its `filename` column.  (The column
holds folder-qualified paths, so the second disjunct compares the bare
candidate against folder-qualified values.) -/
def gfTaken (cfg : Config) (db : DB) (fs : FS) (absFolder : PPath)
    (cand : String) : Bool :=
  pathExists fs (pjoin absFolder (relOf [cand])) ||
    (get_user_mediaitem_by_filename db cfg.userId (relOf [cand])).isSome

/-- The `while` loop of `generate_filename`, with explicit fuel (each
rejected candidate is witnessed by a distinct file or row, so the fuel
chosen at the call site is never exhausted). -/
def gfLoop (cfg : Config) (db : DB) (fs : FS) (absFolder : PPath)
    (orig : String) : Nat → String → Nat → String
  | 0, cand, _ => cand
  | fuel + 1, cand, i =>
    if gfTaken cfg db fs absFolder cand then
      gfLoop cfg db fs absFolder orig fuel (indexedName orig i) (i + 1)
    else cand

/-- `GPhotosBackup.generate_filename` (`is_thumbnail` is never passed). -/
def generate_filename (cfg : Config) (db : DB) (fs : FS) (item : Item) : PPath :=
  let folder := creationFolder item.creationTime
  let absFolder := abspath cfg.cwd (pjoin (userRoot cfg) folder)
  let fuel := db.mediaitems.length + fs.length + 1
  pjoin folder (relOf [gfLoop cfg db fs absFolder item.filename fuel item.filename 2])

/-- `GPhotosBackup.set_mediaitem`: classify one remote item, maintaining
the `mediaitems` table, and produce its `DownloadInfo`. -/
def set_mediaitem (cfg : Config) (st : Sys) (item : Item) : DownloadInfo × Sys :=
  let mediaitem := get_user_mediaitem_by_uid st.db cfg.userId item.id
  let item_type := itemType item.mimeType
  let creation_time := item.creationTime
  let d0 : DownloadInfo :=
    { id := 0, mediaitem_uid := item.id, creation_time := creation_time,
      item_type := item_type, base_url := item.baseUrl, filename := relOf [],
      original_filename := item.filename, thumbnail := relOf [],
      download_status := .item_and_thumbnail }
  if item_type = "video" ∧ item.videoStatus ≠ some "READY" then
    ({ d0 with download_status := .not_ready }, st)
  else
    match mediaitem with
    | none =>
      let filename := generate_filename cfg st.db st.fs item
      let thumbnail := if item_type = "video" then addSuffix filename ".jpg" else filename
      let added := add_mediaitem st.db
        { id := 0, user_id := cfg.userId, mediaitem_uid := item.id,
          mtype := item_type, mime_type := item.mimeType,
          product_url := item.productUrl, creation_time := creation_time,
          original_filename := item.filename, filename := filename,
          thumbnail := thumbnail, width := item.width, height := item.height,
          last_seen := st.currentCycle }
      ({ d0 with id := added.2, filename := filename, thumbnail := thumbnail },
       { st with db := added.1 })
    | some m =>
      if m.filename = relOf [] then
        let filename := generate_filename cfg st.db st.fs item
        let thumbnail := if item_type = "video" then addSuffix filename ".jpg" else filename
        let db' := update_mediaitem_ftl st.db m.id filename thumbnail st.currentCycle
        ({ d0 with id := m.id, filename := filename, thumbnail := thumbnail },
         { st with db := db' })
      else
        let thumbnail :=
          if m.thumbnail = relOf [] then
            (if item_type = "video" then addSuffix m.filename ".jpg" else m.filename)
          else m.thumbnail
        let db' := update_mediaitem_tl st.db m.id thumbnail st.currentCycle
        let di := { d0 with id := m.id, filename := m.filename, thumbnail := thumbnail }
        let st' := { st with db := db' }
        let abs_path_filename := abspath cfg.cwd (pjoin (userRoot cfg) m.filename)
        if ¬ file_exists cfg st.fs abs_path_filename then (di, st')
        else
          let abs_path_thumbnail :=
            abspath cfg.cwd (pjoin (pjoin (userRoot cfg) (relOf [THUMBNAILS_FOLDER])) thumbnail)
          if ¬ file_exists cfg st.fs abs_path_thumbnail ∧ cfg.downloadThumbnails then
            ({ di with download_status := .thumbnail_only }, st')
          else
            ({ di with download_status := .already_downloaded }, st')

/-- Which `except` clause of Python can see a raised object: ordinary
`Exception` subclasses, or `BaseException`-only classes such as
`KeyboardInterrupt`/`SystemExit`, which `except Exception:` does not catch. -/
inductive ExcClass where
  | exception
  | baseException
deriving DecidableEq

/-- The environment outcome of one `utils.download_file` call, decided by
the network/OS oracle: the HTTP request succeeds and the body copies and
`os.utime` succeeds (`success`); `raise_for_status` raises `HTTPError`
before the destination is opened (`httpError`); `requests.get` itself
raises before the destination is opened (`connectFail`); the body copy
raises after `open(filename, 'wb')` created the destination
(`bodyFail`); or `os.utime` raises after the body was fully written
(`utimeFail`). -/
inductive XferOutcome where
  | success
  | httpError (code : Nat)
  | connectFail (e : ExcClass)
  | bodyFail (e : ExcClass)
  | utimeFail (e : ExcClass)
deriving DecidableEq

/-- The network/OS oracle, keyed by request URL. -/
abbrev Net := String → XferOutcome

/-- The result of `utils.download_file`: the returned `(status, error)`
tuple (`ret 200` is the success tuple `(200, None)`), or a raised
exception propagating out of the function. -/
inductive DFRes where
  | ret (status : Nat)
  | raised (e : ExcClass)
deriving DecidableEq

/-- `utils.download_file`.  `raise_for_status` runs before the
destination is opened, so the `HTTPError` branch never has a file to
clean; the generic `except Exception:` clause removes the destination if
it exists and re-raises; a `BaseException`-only class is not caught by
that clause and propagates with no cleanup.  (The timestamp argument is
not modelled: file mtimes are outside the file-set state, and utime
failure is covered by the oracle.) -/
def download_file (net : Net) (url : String) (filename : PPath) (fs : FS) :
    FS × DFRes :=
  match net url with
  | .success => (addPath fs filename, .ret 200)
  | .httpError c => (fs, .ret c)
  | .connectFail .exception => (removePath fs filename, .raised .exception)
  | .connectFail .baseException => (fs, .raised .baseException)
  | .bodyFail .exception => (removePath (addPath fs filename) filename, .raised .exception)
  | .bodyFail .baseException => (addPath fs filename, .raised .baseException)
  | .utimeFail .exception => (removePath (addPath fs filename) filename, .raised .exception)
  | .utimeFail .baseException => (addPath fs filename, .raised .baseException)

/-- An exception propagating out of `handle_mediaitem`: the re-raised
`HTTPError` of a non-200 status, or an exception that propagated out of
`download_file` itself. -/
inductive PyExc where
  | httpError (code : Nat)
  | raisedExc (e : ExcClass)
deriving DecidableEq

/-- The observable outcome of one worker: the file tree afterwards, the
URLs fetched, the progress-bus lines emitted, and the exception (if any)
that propagated. -/
structure HandleOut where
  fs : FS
  reqs : List String
  logs : List String
  exc : Option PyExc
deriving DecidableEq

/-- The full-file URL `base_url=d` with the video variant `=dv`. -/
def item_url (di : DownloadInfo) : String :=
  di.base_url ++ "=d" ++ (if di.item_type = "video" then "v" else "")

/-- The thumbnail URL `base_url=w640-h640` with `-no` appended for video. -/
def thumb_url (di : DownloadInfo) : String :=
  di.base_url ++ "=w" ++ toString THUMBNAIL_SIZE ++ "-h" ++ toString THUMBNAIL_SIZE ++
    (if di.item_type = "video" then "-no" else "")

/-- The rate-limit message pushed to the progress bus on HTTP 429. -/
def rateLimitMsg : String :=
  "The rate limit for this service has been exceeded. Try again in 24 hours."

/-- The thumbnail download step at the end of `handle_mediaitem`: any
non-200 status re-raises the `HTTPError`. -/
def handle_thumbnail_step (cfg : Config) (net : Net) (di : DownloadInfo)
    (fs1 : FS) (reqs1 logs1 : List String) : HandleOut :=
  let turl := thumb_url di
  let full_thumbnail :=
    abspath cfg.cwd (pjoin (pjoin (userRoot cfg) (relOf [THUMBNAILS_FOLDER])) di.thumbnail)
  let r2 := download_file net turl full_thumbnail fs1
  match r2.2 with
  | .ret s =>
    if s ≠ 200 then ⟨r2.1, reqs1 ++ [turl], logs1, some (.httpError s)⟩
    else
      ⟨r2.1, reqs1 ++ [turl],
       logs1 ++ (if di.download_status = .thumbnail_only then
                   [di.original_filename ++ " - thumbnail downloaded"] else []),
       none⟩
  | .raised e => ⟨r2.1, reqs1 ++ [turl], logs1, some (.raisedExc e)⟩

/-- `GPhotosBackup.handle_mediaitem`: one download worker.  `NOT_READY`
and `ALREADY_DOWNLOADED` items only log; a full download of status 404 is
a per-item skip; 429 logs the rate-limit message and re-raises; any other
non-200 status re-raises; then the thumbnail is fetched, where any
non-200 status re-raises. -/
def handle_mediaitem (cfg : Config) (net : Net) (fs : FS) (di : DownloadInfo) :
    HandleOut :=
  if di.download_status = .not_ready then
    ⟨fs, [], [di.original_filename ++ " - not ready for downloading"], none⟩
  else if di.download_status = .already_downloaded then
    ⟨fs, [], [di.original_filename ++ " - aready downloaded"], none⟩
  else if di.download_status = .item_and_thumbnail then
    let url := item_url di
    let full_filename := abspath cfg.cwd (pjoin (userRoot cfg) di.filename)
    let r := download_file net url full_filename fs
    match r.2 with
    | .ret s =>
      if s = 404 then ⟨r.1, [url], [di.original_filename ++ " - not available"], none⟩
      else if s = 429 then ⟨r.1, [url], [rateLimitMsg], some (.httpError 429)⟩
      else if s ≠ 200 then ⟨r.1, [url], [], some (.httpError s)⟩
      else
        handle_thumbnail_step cfg net di r.1 [url]
          [di.original_filename ++ " - file downloaded"]
    | .raised e => ⟨r.1, [url], [], some (.raisedExc e)⟩
  else
    handle_thumbnail_step cfg net di fs [] []

/-- The bounded worker pool of `download_mediaitems_from_next_page`,
joined before the page outcome is persisted, modelled as a sequential
fold: the first propagating exception aborts the remaining items. -/
def run_executor (cfg : Config) (net : Net) : FS → List DownloadInfo → HandleOut
  | fs, [] => ⟨fs, [], [], none⟩
  | fs, di :: rest =>
    let h := handle_mediaitem cfg net fs di
    match h.exc with
    | some e => ⟨h.fs, h.reqs, h.logs, some e⟩
    | none =>
      let t := run_executor cfg net h.fs rest
      ⟨t.fs, h.reqs ++ t.reqs, h.logs ++ t.logs, t.exc⟩

/-- A remote album descriptor with the fields consumed from the albums
listing (field names follow the JSON keys). -/
structure AlbumDesc where
  id : String
  title : String
  productUrl : String
  coverPhotoMediaItemId : String
deriving DecidableEq

/-- The fixed remote library: the pages of the main media listing, the
pages of the albums listing, and per album uid the pages of the scoped
search.  Continuation tokens are modelled as numeric page indexes (page
`p` hands out token `p+1` while more pages remain). -/
structure Library where
  mediaPages : List (List Item)
  albumPages : List (List AlbumDesc)
  albumItems : String → List (List Item)

/-- A media-items listing response: the optional `mediaItems` node and the
optional `nextPageToken` node. -/
structure ItemsResponse where
  mediaItems : Option (List Item)
  nextPageToken : Option Nat
deriving DecidableEq

/-- An albums listing response. -/
structure AlbumsResponse where
  albums : Option (List AlbumDesc)
  nextPageToken : Option Nat
deriving DecidableEq

/-- Paged listing: an absent token fetches page 0; the response carries a
continuation token while later pages remain; a token past the end yields a
response with neither node. -/
def pageItems (pages : List (List Item)) (tok : Option Nat) : ItemsResponse :=
  let t := tok.getD 0
  match pages[t]? with
  | some its => ⟨some its, if t + 1 < pages.length then some (t + 1) else none⟩
  | none => ⟨none, none⟩

/-- `self.gphoto_resource.mediaItems().list(...)`. -/
def listMediaItems (lib : Library) (tok : Option Nat) : ItemsResponse :=
  pageItems lib.mediaPages tok

/-- `self.gphoto_resource.mediaItems().search(...)` scoped to one album. -/
def searchAlbumItems (lib : Library) (uid : String) (tok : Option Nat) :
    ItemsResponse :=
  pageItems (lib.albumItems uid) tok

/-- `self.gphoto_resource.albums().list(...)`. -/
def listAlbums (lib : Library) (tok : Option Nat) : AlbumsResponse :=
  let t := tok.getD 0
  match lib.albumPages[t]? with
  | some al => ⟨some al, if t + 1 < lib.albumPages.length then some (t + 1) else none⟩
  | none => ⟨none, none⟩

/-- The persisted `next-page-token` option read as a page index (absent,
deleted, or non-numeric rows read as the absent token). -/
def pageTok (st : Sys) : Option Nat :=
  match get_user_option st.db.options "next-page-token" with
  | some (.n t) => some t
  | _ => none

/-- Persist or clear the `next-page-token` option. -/
def setTok (st : Sys) (t : Option Nat) : Sys :=
  { st with db := { st.db with
      options := set_user_option st.db.options "next-page-token" (t.map .n) } }

/-- Persist the `backup-stage` option. -/
def setStageOpt (st : Sys) (bs : BackupStage) : Sys :=
  { st with db := { st.db with
      options := set_user_option st.db.options "backup-stage" (some (.s bs.value)) } }

/-- Persist or clear the `backup-stage-args` option. -/
def setArgsOpt (st : Sys) (v : Option Nat) : Sys :=
  { st with db := { st.db with
      options := set_user_option st.db.options "backup-stage-args" (v.map .n) } }

/-- `get_user_option(user, 'backup-stage-args', 0)` read as the album row
id (0 when absent). -/
def argsOptNat (st : Sys) : Nat :=
  match get_user_option st.db.options "backup-stage-args" with
  | some (.n k) => k
  | _ => 0

/-- An exception aborting the crawl loop. -/
inductive CrawlExc where
  | invalidResponse
  | unknownBackupStage
  | downloadError (e : PyExc)
deriving DecidableEq

/-- The outcome of one page function: the new state and the
all-pages-finished flag, or a propagating exception with the state at the
raise point. -/
inductive PageOut where
  | ok (st : Sys) (finished : Bool)
  | fail (st : Sys) (e : CrawlExc)
deriving DecidableEq

/-- Lines 275-282 / 319-326 of `__init__.py`: persist the continuation
token and report unfinished, or clear it and report finished. -/
def finishTok (st : Sys) (tok : Option Nat) : PageOut :=
  match tok with
  | some t => .ok (setTok st (some t)) false
  | none => .ok (setTok st none) true

/-- The albumitems upsert done per item when a page is processed with an
album filter (lines 254-263). -/
def upsert_albumitem (st : Sys) (album_uid mediaitem_uid : String) : Sys :=
  match get_albumitem_by st.db album_uid mediaitem_uid with
  | some ai => { st with db := update_albumitem_ls st.db ai.id st.currentCycle }
  | none => { st with db := (add_albumitem st.db album_uid mediaitem_uid st.currentCycle).1 }

/-- The classification loop over a page of items (lines 250-264):
`set_mediaitem` for each item, the albumitems upsert when an album filter
is active, and the accumulated `files_to_download` list. -/
def classify_page (cfg : Config) (album : Option String) :
    Sys → List Item → Sys × List DownloadInfo
  | st, [] => (st, [])
  | st, item :: rest =>
    let r := set_mediaitem cfg st item
    let st2 :=
      match album with
      | some a => upsert_albumitem r.2 a r.1.mediaitem_uid
      | none => r.2
    let t := classify_page cfg album st2 rest
    (t.1, r.1 :: t.2)

/-- `GPhotosBackup.download_mediaitems_from_next_page`: list the next page
with the persisted token, raise `InvalidResponse` when the response has
neither `mediaItems` nor `nextPageToken`, classify and dispatch the items
(an executor exception propagates before the token is persisted), then
persist or clear the continuation token. -/
def download_mediaitems_from_next_page (cfg : Config) (lib : Library)
    (net : Net) (album : Option String) (st : Sys) : PageOut :=
  let page_token := pageTok st
  let response :=
    match album with
    | some a => searchAlbumItems lib a page_token
    | none => listMediaItems lib page_token
  if response.mediaItems = none ∧ response.nextPageToken = none then
    .fail st .invalidResponse
  else
    match response.mediaItems with
    | some items =>
      let c := classify_page cfg album st items
      let h := run_executor cfg net c.1.fs c.2
      let stc := { c.1 with fs := h.fs, logs := c.1.logs ++ h.logs }
      match h.exc with
      | some e => .fail stc (.downloadError e)
      | none => finishTok stc response.nextPageToken
    | none => finishTok st response.nextPageToken

/-- The album upsert per listed album (lines 301-317). -/
def upsert_album (cfg : Config) (st : Sys) (d : AlbumDesc) : Sys :=
  match get_user_album_by_uid st.db cfg.userId d.id with
  | none =>
    let added := add_album st.db
      { id := 0, user_id := cfg.userId, album_uid := d.id, title := d.title,
        atype := "album", product_url := d.productUrl,
        cover_mediaitem_uid := d.coverPhotoMediaItemId,
        last_seen := st.currentCycle }
    { st with db := added.1,
              logs := st.logs ++ ["Album \"" ++ d.title ++ "\" added"] }
  | some a =>
    { st with db := update_album_tl st.db a.id d.title st.currentCycle,
              logs := st.logs ++ ["Album \"" ++ d.title ++ "\" updated"] }

/-- `GPhotosBackup.download_albums_from_next_page`: raise
`InvalidResponse` when the response has no `albums` node, upsert each
listed album, then persist or clear the continuation token. -/
def download_albums_from_next_page (cfg : Config) (lib : Library) (st : Sys) :
    PageOut :=
  let page_token := pageTok st
  let response := listAlbums lib page_token
  match response.albums with
  | none => .fail st .invalidResponse
  | some descs =>
    finishTok (descs.foldl (upsert_album cfg) st) response.nextPageToken

/-- An observation of the crawl loop: which page of which collection one
iteration processed (indexes are 0-based: remote page `N` is index `N-1`),
and the end-of-cycle bookkeeping event. -/
inductive PageEvent where
  | mediaPage (page : Nat)
  | albumPage (page : Nat)
  | albumItemPage (albumId : Nat) (albumUid : String) (page : Nat)
  | cycleEnd
deriving DecidableEq

/-- The `END` block at the bottom of the crawl loop (lines 384-389):
persist Stage=MEDIA_ITEM, delete StageArgs, increment `current_cycle` in
memory and persist it. -/
def endCycle (st : Sys) : Sys :=
  let st1 := setStageOpt st .media_item
  let st2 := setArgsOpt st1 none
  let c := st2.currentCycle + 1
  { st2 with currentCycle := c,
             db := { st2.db with
               options := set_user_option st2.db.options "current-cycle" (some (.n c)) } }

/-- Apply the `if backup_stage == END` check closing every loop
iteration, tagging the bookkeeping with a `cycleEnd` event. -/
def endCheck (bs : BackupStage) (st : Sys) (evs : List PageEvent) :
    BackupStage × Sys × List PageEvent :=
  if bs = .end_stage then (.media_item, endCycle st, evs ++ [.cycleEnd])
  else (bs, st, evs)

/-- One iteration of the `while True` loop of `GPhotosBackup.crawl`
(without the watchdog check): dispatch on the in-memory stage, run the
matching page function, perform the stage transitions and persistence of
lines 341-389, and report the processed page.  The `END` value reached at
the top of an iteration is the `else` branch raising
`UnknownBackupStage`. -/
def crawlBody (cfg : Config) (lib : Library) (net : Net) (bs : BackupStage)
    (st : Sys) : Except (Sys × CrawlExc) (BackupStage × Sys × List PageEvent) :=
  match bs with
  | .media_item =>
    let pg := (pageTok st).getD 0
    match download_mediaitems_from_next_page cfg lib net none st with
    | .fail st' e => .error (st', e)
    | .ok st' finished =>
      if finished then .ok (endCheck .album (setStageOpt st' .album) [.mediaPage pg])
      else .ok (endCheck .media_item st' [.mediaPage pg])
  | .album =>
    let pg := (pageTok st).getD 0
    match download_albums_from_next_page cfg lib st with
    | .fail st' e => .error (st', e)
    | .ok st' finished =>
      if finished then
        match get_user_album_after st'.db cfg.userId 0 with
        | some a =>
          .ok (endCheck .album_item
            (setStageOpt (setArgsOpt st' (some a.id)) .album_item) [.albumPage pg])
        | none => .ok (endCheck .end_stage st' [.albumPage pg])
      else .ok (endCheck .album st' [.albumPage pg])
  | .album_item =>
    let album_id := argsOptNat st
    let album :=
      if album_id = 0 then get_user_album_after st.db cfg.userId 0
      else
        match get_user_album_by_id st.db cfg.userId album_id with
        | some a => some a
        | none => get_user_album_after st.db cfg.userId album_id
    match album with
    | none => .ok (endCheck .end_stage st [])
    | some a =>
      let pg := (pageTok st).getD 0
      match download_mediaitems_from_next_page cfg lib net (some a.album_uid) st with
      | .fail st' e => .error (st', e)
      | .ok st' finished =>
        if finished then
          match get_user_album_after st'.db cfg.userId a.id with
          | some a' =>
            .ok (endCheck .album_item (setArgsOpt st' (some a'.id))
              [.albumItemPage a.id a.album_uid pg])
          | none => .ok (endCheck .end_stage st' [.albumItemPage a.id a.album_uid pg])
        else .ok (endCheck .album_item st' [.albumItemPage a.id a.album_uid pg])
  | .end_stage => .error (st, .unknownBackupStage)

/-- The crawl loop state: still looping, exited through the watchdog
break, or terminated by a propagating exception. -/
inductive LoopState where
  | go (bs : BackupStage) (st : Sys)
  | halted (st : Sys)
  | failed (st : Sys) (e : CrawlExc)
deriving DecidableEq

/-- The `Sys` state carried by a loop state. -/
def LoopState.sys : LoopState → Sys
  | .go _ st => st
  | .halted st => st
  | .failed st _ => st

/-- One iteration of the crawl loop including the watchdog check at the
top (`dl i` is whether the deadline has lapsed before iteration `i`). -/
def crawlTick (cfg : Config) (lib : Library) (net : Net) (dl : Nat → Bool)
    (i : Nat) : LoopState → LoopState × List PageEvent
  | .go bs st =>
    if dl i then (.halted st, [])
    else
      match crawlBody cfg lib net bs st with
      | .error (st', e) => (.failed st' e, [])
      | .ok (bs', st', evs) => (.go bs' st', evs)
  | ls => (ls, [])

/-- Run `n` iterations of the crawl loop starting at iteration index `i`,
collecting the page trace. -/
def crawlRun (cfg : Config) (lib : Library) (net : Net) (dl : Nat → Bool) :
    Nat → Nat → LoopState → LoopState × List PageEvent
  | 0, _, ls => (ls, [])
  | n + 1, i, ls =>
    let r1 := crawlTick cfg lib net dl i ls
    let r2 := crawlRun cfg lib net dl n (i + 1) r1.1
    (r2.1, r1.2 ++ r2.2)

/-- Lines 331-336 of `__init__.py`: parse the persisted stage, with a
`ValueError` falling back to `MEDIA_ITEM`. -/
def initialStage (opts : Opts) : BackupStage :=
  match parseBackupStage (get_user_option_d opts "backup-stage" (.s "mediaitem")) with
  | some s => s
  | none => .media_item

/-- `GPhotosBackup.crawl` with the shared crawler lock: the lock is set on
entry; after the loop it is cleared only on the watchdog break path — a
propagating exception leaves it set (there is no try/finally around the
loop).  Returns the final lock value, the loop state after `fuel`
iterations, and the trace. -/
def crawlTop (cfg : Config) (lib : Library) (net : Net) (dl : Nat → Bool)
    (fuel : Nat) (st : Sys) : Bool × LoopState × List PageEvent :=
  let r := crawlRun cfg lib net dl fuel 0 (.go (initialStage st.db.options) st)
  match r.1 with
  | .halted st' => (false, .halted st', r.2)
  | ls => (true, ls, r.2)

/-- Where one `GPhotosBackup.run` caller stands: still in the
`while self.global_crawler_lock.is_set()` wait loop; past the wait loop
but its crawl thread has not yet executed `lock.set()`; crawling with the
lock set; or done after the crawl loop cleared the lock. -/
inductive CallerPC where
  | waiting
  | starting
  | crawling
  | released
deriving DecidableEq

/-- The shared state of two concurrent `run` callers and the process-wide
`global_crawler_lock` event. -/
structure RaceState where
  lock : Bool
  a : CallerPC
  b : CallerPC
deriving DecidableEq

/-- The atomic actions of the two callers, interleaved by the scheduler:
`check` is one evaluation of `lock.is_set()` at the top of the wait loop
(the caller leaves the loop only when it reads false), `start` is the
spawned crawl thread executing `lock.set()`, `release` is the crawl loop
exiting through the watchdog and executing `lock.clear()`. -/
inductive RaceAct where
  | aCheck
  | aStart
  | aRelease
  | bCheck
  | bStart
  | bRelease
deriving DecidableEq

/-- One scheduled action (actions not enabled at the current program
counter leave the state unchanged; a `check` that reads true re-emits a
waiting line and stays in the loop). -/
def raceStep (s : RaceState) : RaceAct → RaceState
  | .aCheck => if s.a = .waiting ∧ s.lock = false then { s with a := .starting } else s
  | .aStart => if s.a = .starting then { s with a := .crawling, lock := true } else s
  | .aRelease => if s.a = .crawling then { s with a := .released, lock := false } else s
  | .bCheck => if s.b = .waiting ∧ s.lock = false then { s with b := .starting } else s
  | .bStart => if s.b = .starting then { s with b := .crawling, lock := true } else s
  | .bRelease => if s.b = .crawling then { s with b := .released, lock := false } else s

/-- Run a schedule of interleaved actions. -/
def raceRun (s : RaceState) (acts : List RaceAct) : RaceState :=
  acts.foldl raceStep s

/-- Both callers enter their wait loops with the lock free. -/
def raceInit : RaceState := ⟨false, .waiting, .waiting⟩

/-- How many crawl loops are active. -/
def activeCrawls (s : RaceState) : Nat :=
  (if s.a = .crawling then 1 else 0) + (if s.b = .crawling then 1 else 0)

/-- The albums-table row created for a new listed album descriptor with
autoincrement id `n`. -/
def mkAlbumRec (cfg : Config) (cyc : Nat) (d : AlbumDesc) (n : Nat) : AlbumRec :=
  { id := n, user_id := cfg.userId, album_uid := d.id, title := d.title,
    atype := "album", product_url := d.productUrl,
    cover_mediaitem_uid := d.coverPhotoMediaItemId, last_seen := cyc }

/-- The albums-table rows created when the listed album descriptors are
all new, ids assigned by autoincrement from `n`. -/
def mkAlbums (cfg : Config) (cyc : Nat) : List AlbumDesc → Nat → List AlbumRec
  | [], _ => []
  | d :: ds, n => mkAlbumRec cfg cyc d n :: mkAlbums cfg cyc ds (n + 1)

/-- The `ALBUM_ITEM` section of the expected trace: every album in
ascending internal id order starting at `n`, all pages of each. -/
def albumTrace (lib : Library) : List AlbumDesc → Nat → List PageEvent
  | [], _ => []
  | d :: ds, n =>
    (List.range (lib.albumItems d.id).length).map (.albumItemPage n d.id) ++
      albumTrace lib ds (n + 1)

/-- All album descriptors of the remote library, in listing order. -/
def allAlbumDescs (lib : Library) : List AlbumDesc := lib.albumPages.flatten

/-- The page trace of one full traversal: media pages 0..M-1, album pages
0..A-1, every album in ascending id order, one cycle increment. -/
def expectedTrace (lib : Library) : List PageEvent :=
  (List.range lib.mediaPages.length).map .mediaPage ++
    (List.range lib.albumPages.length).map .albumPage ++
    albumTrace lib (allAlbumDescs lib) 1 ++ [.cycleEnd]

/-- The number of loop iterations of one full traversal. -/
def totalPages (lib : Library) : Nat :=
  lib.mediaPages.length + lib.albumPages.length +
    ((allAlbumDescs lib).map (fun d => (lib.albumItems d.id).length)).sum

/-- The persisted token value after `p` pages of one collection were
processed (absent before the first page). -/
def tokFor (p : Nat) : Option Nat := if p = 0 then none else some p

/-- The state carried by a page outcome. -/
def PageOut.sys : PageOut → Sys
  | .ok st _ => st
  | .fail st _ => st

/-- A concrete configuration for concrete evaluations. -/
def cfgW : Config :=
  { storagePath := relOf ["archive"], userEmail := "user", userId := 1,
    cwd := ⟨true, ["home"]⟩, downloadThumbnails := true }

/-- An empty database (autoincrement counters start at 1 as in SQLite). -/
def freshDB : DB := ⟨[], [], [], 1, 1, 1, []⟩

/-- A fresh machine state. -/
def freshSys : Sys := ⟨freshDB, [], [], 0⟩

/-- An oracle under which every transfer succeeds. -/
def netOk : Net := fun _ => .success

/-- A watchdog deadline that never lapses. -/
def dlNever : Nat → Bool := fun _ => false

/-- A remote photo item named `a.jpg` with no creation timestamp. -/
def itemA : Item :=
  ⟨"uid-a", "image/jpeg", "purl-a", "a.jpg", "burl-a", "", none, none, none⟩

/-- A distinct remote photo item with the same original filename. -/
def itemB : Item :=
  ⟨"uid-b", "image/jpeg", "purl-b", "a.jpg", "burl-b", "", none, none, none⟩

/-- A one-page, one-album remote library for concrete traversals. -/
def libW : Library :=
  { mediaPages := [[]],
    albumPages := [[⟨"alb-uid", "Holiday", "purl", "cover"⟩]],
    albumItems := fun _ => [[]] }

/-- A video item whose remote processing status is not READY. -/
def itemV : Item :=
  ⟨"uid-v", "video/mp4", "purl-v", "v.mp4", "burl-v", "", none, none,
   some "PROCESSING"⟩

/-- An oracle under which every transfer is interrupted mid-body by a
`BaseException`-only class (KeyboardInterrupt). -/
def netInterrupt : Net := fun _ => .bodyFail .baseException

/-- A concrete absolute destination path. -/
def pW : PPath := ⟨true, ["home", "archive", "user", "other", "a.jpg"]⟩

/-- A state whose persisted `backup-stage` is an unrecognized string. -/
def stBogusStage : Sys :=
  { freshSys with db := { freshDB with options := [("backup-stage", .s "bogus")] } }

/-- A state whose persisted `backup-stage` is the member value `end`. -/
def stEndStage : Sys :=
  { freshSys with db := { freshDB with options := [("backup-stage", .s "end")] } }

/-- Whether a loop state is an exception exit. -/
def LoopState.isFailed : LoopState → Bool
  | .failed _ _ => true
  | _ => false

/-- A downloadable item needing only its thumbnail. -/
def diT : DownloadInfo :=
  ⟨1, "uid-a", "", "image", "burl-a", relOf ["other", "a.jpg"], "a.jpg",
   relOf ["other", "a.jpg"], .thumbnail_only⟩

/-- A downloadable item needing bytes and thumbnail. -/
def diF : DownloadInfo :=
  ⟨1, "uid-a", "", "image", "burl-a", relOf ["other", "a.jpg"], "a.jpg",
   relOf ["other", "a.jpg"], .item_and_thumbnail⟩

/-- Oracles answering every request with one fixed failure. -/
def net404 : Net := fun _ => .httpError 404

/-- Every request is answered 429. -/
def net429 : Net := fun _ => .httpError 429

/-- Every request is answered 500. -/
def net500 : Net := fun _ => .httpError 500

/-- Every request fails in transit with an ordinary exception. -/
def netConn : Net := fun _ => .connectFail .exception

/-- The state of an item that a previous run fully downloaded: its
MediaItem row exists with assigned filename and thumbnail paths, and both
the byte file and the thumbnail are present on the local disk. -/
def DownloadedHyp (cfg : Config) (st : Sys) (item : Item) : Prop :=
  ∃ m, get_user_mediaitem_by_uid st.db cfg.userId item.id = some m ∧
    m.filename ≠ relOf [] ∧ m.thumbnail ≠ relOf [] ∧
    abspath cfg.cwd (pjoin (userRoot cfg) m.filename) ∈ st.fs ∧
    abspath cfg.cwd (pjoin (pjoin (userRoot cfg) (relOf [THUMBNAILS_FOLDER]))
      m.thumbnail) ∈ st.fs

/-- The item is not a video pending remote processing (an unchanged item
that was previously downloaded is necessarily READY). -/
def VideoReady (item : Item) : Prop :=
  itemType item.mimeType = "video" → item.videoStatus = some "READY"

/-- The stored row of `itemA` after a completed first run. -/
def mW : MediaRec :=
  ⟨1, 1, "uid-a", "image", "image/jpeg", "purl-a", "", "a.jpg",
   relOf ["other", "a.jpg"], relOf ["other", "a.jpg"], none, none, 0⟩

/-- A state in which `itemA` is fully downloaded: row present, byte file
and thumbnail on disk. -/
def stDownloaded : Sys :=
  ⟨⟨[mW], [], [], 2, 1, 1, []⟩,
   [⟨true, ["home", "archive", "user", "other", "a.jpg"]⟩,
    ⟨true, ["home", "archive", "user", "thumbnails", "other", "a.jpg"]⟩],
   [], 1⟩

/-- The remote page list that `download_mediaitems_from_next_page`
consumes for the given album filter. -/
def pagesFor (lib : Library) : Option String → List (List Item)
  | some a => lib.albumItems a
  | none => lib.mediaPages

/-- A two-media-page remote library (for token-resumption evaluation). -/
def lib2 : Library :=
  { mediaPages := [[itemA], [itemB]],
    albumPages := [[⟨"alb-uid", "Holiday", "purl", "cover"⟩]],
    albumItems := fun _ => [[]] }

end GPB

namespace GPB

theorem get_user_option_cons (p : String × JVal) (o : Opts) (k : String) :
    get_user_option (p :: o) k =
      if p.1 = k then some p.2 else get_user_option o k := by
  by_cases h : p.1 = k <;> simp [get_user_option, List.find?_cons, h]

theorem get_filter_ne_self (o : Opts) (k : String) :
    get_user_option (o.filter (fun p => decide (p.1 ≠ k))) k = none := by
  induction o with
  | nil => rfl
  | cons p t ih =>
    by_cases h : p.1 = k
    · simpa [List.filter_cons, h] using ih
    · simpa [List.filter_cons, h, get_user_option_cons] using ih

theorem get_filter_ne_other (o : Opts) (k k' : String) (h : k' ≠ k) :
    get_user_option (o.filter (fun p => decide (p.1 ≠ k))) k' =
      get_user_option o k' := by
  induction o with
  | nil => rfl
  | cons p t ih =>
    rw [List.filter_cons]
    by_cases hp : p.1 = k
    · rw [if_neg (by simp [hp]), get_user_option_cons,
        if_neg (by rw [hp]; exact fun e => h e.symm)]
      exact ih
    · rw [if_pos (by simp [hp]), get_user_option_cons, get_user_option_cons]
      by_cases hq : p.1 = k'
      · rw [if_pos hq, if_pos hq]
      · rw [if_neg hq, if_neg hq]
        exact ih

theorem get_append_right_of_none (o1 o2 : Opts) (k : String)
    (h : get_user_option o1 k = none) :
    get_user_option (o1 ++ o2) k = get_user_option o2 k := by
  induction o1 with
  | nil => rfl
  | cons p t ih =>
    rw [get_user_option_cons] at h
    by_cases hp : p.1 = k
    · simp [hp] at h
    · rw [List.cons_append, get_user_option_cons, if_neg hp]
      exact ih (by simpa [hp] using h)

theorem get_set_option_same (o : Opts) (k : String) (v? : Option JVal) :
    get_user_option (set_user_option o k v?) k = v? := by
  cases v? with
  | none => exact get_filter_ne_self o k
  | some v =>
    rw [set_user_option, get_append_right_of_none _ _ _ (get_filter_ne_self o k)]
    simp [get_user_option_cons]

theorem get_append_left_of_some (o1 o2 : Opts) (k : String) (v : JVal)
    (h : get_user_option o1 k = some v) :
    get_user_option (o1 ++ o2) k = some v := by
  induction o1 with
  | nil => simp [get_user_option] at h
  | cons p t ih =>
    rw [get_user_option_cons] at h
    rw [List.cons_append, get_user_option_cons]
    by_cases hp : p.1 = k
    · simpa [hp] using h
    · exact if_neg hp ▸ ih (by simpa [hp] using h)

theorem get_set_option_other (o : Opts) (k k' : String) (v? : Option JVal)
    (h : k' ≠ k) :
    get_user_option (set_user_option o k v?) k' = get_user_option o k' := by
  cases v? with
  | none => exact get_filter_ne_other o k k' h
  | some v =>
    rw [set_user_option]
    cases hx : get_user_option (o.filter (fun p => decide (p.1 ≠ k))) k' with
    | none =>
      rw [get_append_right_of_none _ _ _ hx, ← get_filter_ne_other o k k' h, hx]
      rw [get_user_option_cons, if_neg (fun hk => h hk.symm)]
      rfl
    | some x =>
      rw [get_append_left_of_some _ _ _ _ hx, ← get_filter_ne_other o k k' h, hx]

theorem pjoin_abs_right (a b : PPath) (h : b.abs = true) : pjoin a b = b := by
  simp [pjoin, h]

theorem abspath_of_abs (cwd p : PPath) (h : p.abs = true) : abspath cwd p = p := by
  simp [abspath, h]

theorem abspath_abs_of_cwd (cwd p : PPath) (h : cwd.abs = true) :
    (abspath cwd p).abs = true := by
  by_cases hp : p.abs = true
  · rw [abspath_of_abs _ _ hp]; exact hp
  · simp only [abspath, pjoin]
    rw [if_neg (by simpa using hp), if_neg (by simpa using hp)]
    exact h

/-- The `file_exists` call on an already absolute argument degenerates to
plain existence of that path (the inner join discards the storage root). -/
theorem file_exists_of_abs (cfg : Config) (fs : FS) (p : PPath)
    (h : p.abs = true) : file_exists cfg fs p = pathExists fs p := by
  rw [file_exists, pjoin_abs_right _ _ h, abspath_of_abs _ _ h]

theorem pageTok_setTok (st : Sys) (t : Option Nat) : pageTok (setTok st t) = t := by
  cases t <;> simp [pageTok, setTok, get_set_option_same]

theorem pageTok_setStageOpt (st : Sys) (bs : BackupStage) :
    pageTok (setStageOpt st bs) = pageTok st := by
  rw [pageTok, setStageOpt, pageTok]
  rw [get_set_option_other _ _ _ _ (by decide)]

theorem pageTok_setArgsOpt (st : Sys) (v : Option Nat) :
    pageTok (setArgsOpt st v) = pageTok st := by
  rw [pageTok, setArgsOpt, pageTok]
  rw [get_set_option_other _ _ _ _ (by decide)]

theorem argsOptNat_setArgsOpt (st : Sys) (k : Nat) :
    argsOptNat (setArgsOpt st (some k)) = k := by
  simp [argsOptNat, setArgsOpt, get_set_option_same]

theorem argsOptNat_setStageOpt (st : Sys) (bs : BackupStage) :
    argsOptNat (setStageOpt st bs) = argsOptNat st := by
  rw [argsOptNat, setStageOpt, argsOptNat]
  rw [get_set_option_other _ _ _ _ (by decide)]

theorem argsOptNat_setTok (st : Sys) (t : Option Nat) :
    argsOptNat (setTok st t) = argsOptNat st := by
  rw [argsOptNat, setTok, argsOptNat]
  cases t <;> rw [get_set_option_other _ _ _ _ (by decide)]

/-- The persisted option values after the `END` block. -/
theorem endCycle_options (st : Sys) :
    get_user_option (endCycle st).db.options "backup-stage" = some (.s "mediaitem") ∧
    get_user_option (endCycle st).db.options "backup-stage-args" = none ∧
    get_user_option (endCycle st).db.options "current-cycle" =
      some (.n (st.currentCycle + 1)) ∧
    (endCycle st).currentCycle = st.currentCycle + 1 := by
  refine ⟨?_, ?_, ?_, rfl⟩
  · show get_user_option (set_user_option (set_user_option (set_user_option
      st.db.options "backup-stage" (some (.s "mediaitem")))
      "backup-stage-args" none) "current-cycle" (some (.n (st.currentCycle + 1))))
      "backup-stage" = some (.s "mediaitem")
    rw [get_set_option_other _ _ _ _ (by decide),
      get_set_option_other _ _ _ _ (by decide), get_set_option_same]
  · show get_user_option (set_user_option (set_user_option (set_user_option
      st.db.options "backup-stage" (some (.s "mediaitem")))
      "backup-stage-args" none) "current-cycle" (some (.n (st.currentCycle + 1))))
      "backup-stage-args" = none
    rw [get_set_option_other _ _ _ _ (by decide), get_set_option_same]
  · show get_user_option (set_user_option (set_user_option (set_user_option
      st.db.options "backup-stage" (some (.s "mediaitem")))
      "backup-stage-args" none) "current-cycle" (some (.n (st.currentCycle + 1))))
      "current-cycle" = some (.n (st.currentCycle + 1))
    rw [get_set_option_same]

/-- `set_mediaitem` only writes the `mediaitems` table: every other state
component is untouched. -/
theorem set_mediaitem_frame (cfg : Config) (st : Sys) (item : Item) :
    (set_mediaitem cfg st item).2.db.albums = st.db.albums ∧
    (set_mediaitem cfg st item).2.db.nextAlbumId = st.db.nextAlbumId ∧
    (set_mediaitem cfg st item).2.db.albumitems = st.db.albumitems ∧
    (set_mediaitem cfg st item).2.db.nextAlbumItemId = st.db.nextAlbumItemId ∧
    (set_mediaitem cfg st item).2.db.options = st.db.options ∧
    (set_mediaitem cfg st item).2.fs = st.fs ∧
    (set_mediaitem cfg st item).2.logs = st.logs ∧
    (set_mediaitem cfg st item).2.currentCycle = st.currentCycle := by
  unfold set_mediaitem
  dsimp only
  repeat' split
  all_goals simp [add_mediaitem, update_mediaitem_ftl, update_mediaitem_tl]

/-- `upsert_albumitem` only writes the `albumitems` table. -/
theorem upsert_albumitem_frame (st : Sys) (a u : String) :
    (upsert_albumitem st a u).db.albums = st.db.albums ∧
    (upsert_albumitem st a u).db.nextAlbumId = st.db.nextAlbumId ∧
    (upsert_albumitem st a u).db.mediaitems = st.db.mediaitems ∧
    (upsert_albumitem st a u).db.options = st.db.options ∧
    (upsert_albumitem st a u).fs = st.fs ∧
    (upsert_albumitem st a u).logs = st.logs ∧
    (upsert_albumitem st a u).currentCycle = st.currentCycle := by
  unfold upsert_albumitem
  repeat' split
  all_goals simp [add_albumitem, update_albumitem_ls]

/-- The classification loop of a page only writes the `mediaitems` and
`albumitems` tables. -/
theorem classify_page_frame (cfg : Config) (album : Option String) :
    ∀ (items : List Item) (st : Sys),
    (classify_page cfg album st items).1.db.albums = st.db.albums ∧
    (classify_page cfg album st items).1.db.nextAlbumId = st.db.nextAlbumId ∧
    (classify_page cfg album st items).1.db.options = st.db.options ∧
    (classify_page cfg album st items).1.fs = st.fs ∧
    (classify_page cfg album st items).1.logs = st.logs ∧
    (classify_page cfg album st items).1.currentCycle = st.currentCycle := by
  intro items
  induction items with
  | nil => intro st; exact ⟨rfl, rfl, rfl, rfl, rfl, rfl⟩
  | cons item rest ih =>
    intro st
    simp only [classify_page]
    obtain ⟨m1, m2, _, _, m5, m6, m7, m8⟩ := set_mediaitem_frame cfg st item
    cases album with
    | none =>
      obtain ⟨i1, i2, i3, i4, i5, i6⟩ := ih (set_mediaitem cfg st item).2
      exact ⟨i1.trans m1, i2.trans m2, i3.trans m5, i4.trans m6, i5.trans m7,
        i6.trans m8⟩
    | some a =>
      obtain ⟨u1, u2, _, u4, u5, u6, u7⟩ :=
        upsert_albumitem_frame (set_mediaitem cfg st item).2 a
          (set_mediaitem cfg st item).1.mediaitem_uid
      obtain ⟨i1, i2, i3, i4, i5, i6⟩ :=
        ih (upsert_albumitem (set_mediaitem cfg st item).2 a
          (set_mediaitem cfg st item).1.mediaitem_uid)
      exact ⟨i1.trans (u1.trans m1), i2.trans (u2.trans m2),
        i3.trans (u4.trans m5), i4.trans (u5.trans m6),
        i5.trans (u6.trans m7), i6.trans (u7.trans m8)⟩

/-- When every transfer succeeds, a worker never raises. -/
theorem handle_mediaitem_ok (cfg : Config) (net : Net)
    (hnet : ∀ u, net u = .success) (fs : FS) (di : DownloadInfo) :
    (handle_mediaitem cfg net fs di).exc = none := by
  unfold handle_mediaitem handle_thumbnail_step download_file
  simp only [hnet]
  repeat' split
  all_goals first | rfl | omega

/-- When every transfer succeeds, the executor never raises. -/
theorem run_executor_ok (cfg : Config) (net : Net)
    (hnet : ∀ u, net u = .success) :
    ∀ (dis : List DownloadInfo) (fs : FS),
    (run_executor cfg net fs dis).exc = none := by
  intro dis
  induction dis with
  | nil => intro fs; rfl
  | cons di rest ih =>
    intro fs
    rw [run_executor]
    rw [handle_mediaitem_ok cfg net hnet fs di]
    exact ih _

/-- The happy path of `download_mediaitems_from_next_page`: with every
transfer succeeding and the persisted token selecting an existing page,
the call classifies and dispatches that page, then persists the next
token (clearing it on the last page), leaving the album table, the option
rows other than the token, and the cycle counter untouched. -/
theorem respFor (lib : Library) (album : Option String) (tok : Option Nat) :
    (match album with
     | some a => searchAlbumItems lib a tok
     | none => listMediaItems lib tok) = pageItems (pagesFor lib album) tok := by
  cases album <;> rfl

theorem download_mediaitems_ok (cfg : Config) (lib : Library) (net : Net)
    (album : Option String) (st : Sys) (p : Nat)
    (hnet : ∀ u, net u = .success)
    (hp : (pageTok st).getD 0 = p)
    (hlt : p < (pagesFor lib album).length) :
    ∃ stc,
      download_mediaitems_from_next_page cfg lib net album st
        = .ok (setTok stc (if p + 1 < (pagesFor lib album).length
              then some (p + 1) else none))
            (if p + 1 < (pagesFor lib album).length then false else true) ∧
      stc.db.albums = st.db.albums ∧
      stc.db.nextAlbumId = st.db.nextAlbumId ∧
      stc.db.options = st.db.options ∧
      stc.currentCycle = st.currentCycle := by
  have hpage : pageItems (pagesFor lib album) (pageTok st)
      = ⟨some ((pagesFor lib album)[p]),
         if p + 1 < (pagesFor lib album).length then some (p + 1) else none⟩ := by
    rw [pageItems]
    rw [hp, List.getElem?_eq_getElem hlt]
  obtain ⟨f1, f2, f3, f4, f5, f6⟩ :=
    classify_page_frame cfg album ((pagesFor lib album)[p]) st
  refine ⟨{ (classify_page cfg album st ((pagesFor lib album)[p])).1 with
      fs := (run_executor cfg net
        (classify_page cfg album st ((pagesFor lib album)[p])).1.fs
        (classify_page cfg album st ((pagesFor lib album)[p])).2).fs,
      logs := (classify_page cfg album st ((pagesFor lib album)[p])).1.logs ++
        (run_executor cfg net
          (classify_page cfg album st ((pagesFor lib album)[p])).1.fs
          (classify_page cfg album st ((pagesFor lib album)[p])).2).logs },
    ?_, f1, f2, f3, f6⟩
  unfold download_mediaitems_from_next_page
  dsimp only
  rw [respFor, hpage]
  dsimp only
  rw [if_neg (by simp)]
  rw [run_executor_ok cfg net hnet]
  by_cases hnx : p + 1 < (pagesFor lib album).length
  · rw [if_pos hnx, if_pos hnx]
    rfl
  · rw [if_neg hnx, if_neg hnx]
    rfl

/-- C2: the continuation token after a MEDIA_ITEM page is persisted
exactly when the listing response carries one and cleared otherwise
(persisting happens only after the page is classified and its downloads
are joined — a propagating executor failure leaves the token untouched);
consequently a later invocation, which passes the persisted token to its
first listing call, fetches page N+1 rather than page 1. -/
theorem c2_token_resume :
    ∀ (cfg : Config) (lib : Library) (net : Net) (st : Sys) (p : Nat),
    (∀ u, net u = .success) →
    (pageTok st).getD 0 = p →
    p < lib.mediaPages.length →
    ∃ st' fin,
      download_mediaitems_from_next_page cfg lib net none st = .ok st' fin ∧
      pageTok st' = (listMediaItems lib (pageTok st)).nextPageToken ∧
      (fin = true ↔ (listMediaItems lib (pageTok st)).nextPageToken = none) ∧
      (p + 1 < lib.mediaPages.length →
        pageTok st' = some (p + 1) ∧
        (listMediaItems lib (pageTok st')).mediaItems = lib.mediaPages[p + 1]?) := by
  intro cfg lib net st p hnet hp hlt
  obtain ⟨stc, heq, _, _, _, _⟩ :=
    download_mediaitems_ok cfg lib net none st p hnet hp hlt
  have htok : (listMediaItems lib (pageTok st)).nextPageToken
      = (if p + 1 < lib.mediaPages.length then some (p + 1) else none) := by
    rw [listMediaItems, pageItems]
    rw [hp, List.getElem?_eq_getElem hlt]
  simp only [pagesFor] at heq
  refine ⟨_, _, heq, ?_, ?_, ?_⟩
  · rw [pageTok_setTok, htok]
  · rw [htok]
    by_cases hnx : p + 1 < lib.mediaPages.length <;> simp [hnx]
  · intro h2
    constructor
    · rw [pageTok_setTok, if_pos h2]
    · rw [pageTok_setTok, if_pos h2, listMediaItems, pageItems]
      simp only [Option.getD_some]
      rw [List.getElem?_eq_getElem h2]

theorem tokFor_getD (p : Nat) : (tokFor p).getD 0 = p := by
  by_cases h : p = 0 <;> simp [tokFor, h]

theorem setTok_frame (st : Sys) (t : Option Nat) :
    (setTok st t).db.albums = st.db.albums ∧
    (setTok st t).db.nextAlbumId = st.db.nextAlbumId ∧
    (setTok st t).currentCycle = st.currentCycle :=
  ⟨rfl, rfl, rfl⟩

theorem setStageOpt_frame (st : Sys) (bs : BackupStage) :
    (setStageOpt st bs).db.albums = st.db.albums ∧
    (setStageOpt st bs).db.nextAlbumId = st.db.nextAlbumId ∧
    (setStageOpt st bs).currentCycle = st.currentCycle :=
  ⟨rfl, rfl, rfl⟩

theorem setArgsOpt_frame (st : Sys) (v : Option Nat) :
    (setArgsOpt st v).db.albums = st.db.albums ∧
    (setArgsOpt st v).db.nextAlbumId = st.db.nextAlbumId ∧
    (setArgsOpt st v).currentCycle = st.currentCycle :=
  ⟨rfl, rfl, rfl⟩

theorem crawlRun_zero (cfg : Config) (lib : Library) (net : Net)
    (dl : Nat → Bool) (i : Nat) (ls : LoopState) :
    crawlRun cfg lib net dl 0 i ls = (ls, []) := rfl

theorem crawlRun_succ (cfg : Config) (lib : Library) (net : Net)
    (dl : Nat → Bool) (n i : Nat) (ls : LoopState) :
    crawlRun cfg lib net dl (n + 1) i ls
      = ((crawlRun cfg lib net dl n (i + 1) (crawlTick cfg lib net dl i ls).1).1,
         (crawlTick cfg lib net dl i ls).2 ++
           (crawlRun cfg lib net dl n (i + 1) (crawlTick cfg lib net dl i ls).1).2) :=
  rfl

theorem crawlRun_append (cfg : Config) (lib : Library) (net : Net)
    (dl : Nat → Bool) :
    ∀ (m n i : Nat) (ls : LoopState),
    crawlRun cfg lib net dl (m + n) i ls
      = ((crawlRun cfg lib net dl n (i + m) (crawlRun cfg lib net dl m i ls).1).1,
         (crawlRun cfg lib net dl m i ls).2 ++
           (crawlRun cfg lib net dl n (i + m) (crawlRun cfg lib net dl m i ls).1).2) := by
  intro m
  induction m with
  | zero => intro n i ls; rw [Nat.zero_add, crawlRun_zero]; rfl
  | succ k ih =>
    intro n i ls
    rw [show k + 1 + n = (k + n) + 1 by omega, crawlRun_succ, crawlRun_succ,
      ih n (i + 1) (crawlTick cfg lib net dl i ls).1,
      show i + 1 + k = i + (k + 1) by omega, List.append_assoc]

theorem upsert_album_cycle (cfg : Config) (st : Sys) (d : AlbumDesc) :
    (upsert_album cfg st d).currentCycle = st.currentCycle := by
  unfold upsert_album
  repeat' split
  all_goals rfl

theorem fold_upsert_cycle (cfg : Config) :
    ∀ (descs : List AlbumDesc) (st : Sys),
    (descs.foldl (upsert_album cfg) st).currentCycle = st.currentCycle := by
  intro descs
  induction descs with
  | nil => intro st; rfl
  | cons d rest ih =>
    intro st
    rw [List.foldl_cons, ih, upsert_album_cycle]

theorem dmfnp_cycle (cfg : Config) (lib : Library) (net : Net)
    (album : Option String) (st : Sys) :
    (download_mediaitems_from_next_page cfg lib net album st).sys.currentCycle
      = st.currentCycle := by
  unfold download_mediaitems_from_next_page
  dsimp only
  split
  · rfl
  · split
    · rename_i items heq
      obtain ⟨_, _, _, _, _, f6⟩ := classify_page_frame cfg album items st
      split
      · exact f6
      · unfold finishTok
        split <;> exact f6
    · unfold finishTok
      split <;> rfl

theorem dafnp_cycle (cfg : Config) (lib : Library) (st : Sys) :
    (download_albums_from_next_page cfg lib st).sys.currentCycle
      = st.currentCycle := by
  unfold download_albums_from_next_page
  dsimp only
  split
  · rfl
  · rename_i descs heq
    unfold finishTok
    split <;> exact fold_upsert_cycle cfg descs st

theorem endCycle_cycle (st : Sys) : (endCycle st).currentCycle = st.currentCycle + 1 :=
  rfl

theorem endCheck_cycle (bs : BackupStage) (st : Sys) (evs : List PageEvent)
    (h0 : evs.countP (fun e => decide (e = PageEvent.cycleEnd)) = 0) :
    (endCheck bs st evs).2.1.currentCycle
      = st.currentCycle +
        (endCheck bs st evs).2.2.countP (fun e => decide (e = PageEvent.cycleEnd)) := by
  unfold endCheck
  split
  · simp [endCycle_cycle, List.countP_append, h0, List.countP_cons]
  · simp [h0]

theorem ok_endCheck_cycle (bs2 : BackupStage) (st2 : Sys) (evs2 : List PageEvent)
    (bs' : BackupStage) (st' : Sys) (evs : List PageEvent)
    (h : (Except.ok (endCheck bs2 st2 evs2) :
        Except (Sys × CrawlExc) (BackupStage × Sys × List PageEvent))
        = .ok (bs', st', evs))
    (h0 : evs2.countP (fun e => decide (e = PageEvent.cycleEnd)) = 0) :
    st'.currentCycle = st2.currentCycle +
      evs.countP (fun e => decide (e = PageEvent.cycleEnd)) := by
  injection h with h1
  have h2 := congrArg (fun x => x.2.1) h1
  have h3 := congrArg (fun x => x.2.2) h1
  dsimp only at h2 h3
  rw [← h2, ← h3]
  exact endCheck_cycle bs2 st2 evs2 h0

/-- Every iteration of the crawl loop either preserves the in-memory
cycle counter or increments it by one, in step with the `cycleEnd` events
it reports. -/
theorem crawlBody_cycle (cfg : Config) (lib : Library) (net : Net)
    (bs : BackupStage) (st : Sys) :
    (∀ bs' st' evs, crawlBody cfg lib net bs st = .ok (bs', st', evs) →
      st'.currentCycle = st.currentCycle +
        evs.countP (fun e => decide (e = PageEvent.cycleEnd))) ∧
    (∀ st' e, crawlBody cfg lib net bs st = .error (st', e) →
      st'.currentCycle = st.currentCycle) := by
  cases bs with
  | media_item =>
    have hpg := dmfnp_cycle cfg lib net none st
    constructor
    · intro bs' st' evs h
      simp only [crawlBody] at h
      split at h
      · exact absurd h (by simp)
      · rename_i st1 fin heq
        rw [heq] at hpg
        dsimp only [PageOut.sys] at hpg
        split at h
        · rw [ok_endCheck_cycle _ _ _ _ _ _ h (by simp),
            (setStageOpt_frame st1 .album).2.2, hpg]
        · rw [ok_endCheck_cycle _ _ _ _ _ _ h (by simp), hpg]
    · intro st' e h
      simp only [crawlBody] at h
      split at h
      · rename_i st1 e1 heq
        rw [heq] at hpg
        dsimp only [PageOut.sys] at hpg
        injection h with h1
        have h2 := congrArg (fun x => x.1) h1
        dsimp only at h2
        rw [← h2, hpg]
      · split at h <;> exact absurd h (by simp)
  | album =>
    have hpg := dafnp_cycle cfg lib st
    constructor
    · intro bs' st' evs h
      simp only [crawlBody] at h
      split at h
      · exact absurd h (by simp)
      · rename_i st1 fin heq
        rw [heq] at hpg
        dsimp only [PageOut.sys] at hpg
        split at h
        · split at h
          · rename_i a ha
            rw [ok_endCheck_cycle _ _ _ _ _ _ h (by simp),
              (setStageOpt_frame _ .album_item).2.2,
              (setArgsOpt_frame st1 (some a.id)).2.2, hpg]
          · rw [ok_endCheck_cycle _ _ _ _ _ _ h (by simp), hpg]
        · rw [ok_endCheck_cycle _ _ _ _ _ _ h (by simp), hpg]
    · intro st' e h
      simp only [crawlBody] at h
      split at h
      · rename_i st1 e1 heq
        rw [heq] at hpg
        dsimp only [PageOut.sys] at hpg
        injection h with h1
        have h2 := congrArg (fun x => x.1) h1
        dsimp only at h2
        rw [← h2, hpg]
      · split at h
        · split at h <;> exact absurd h (by simp)
        · exact absurd h (by simp)
  | album_item =>
    constructor
    · intro bs' st' evs h
      simp only [crawlBody] at h
      split at h
      · rw [ok_endCheck_cycle _ _ _ _ _ _ h (by simp)]
      · rename_i a ha
        have hpg := dmfnp_cycle cfg lib net (some a.album_uid) st
        split at h
        · exact absurd h (by simp)
        · rename_i st1 fin heq
          rw [heq] at hpg
          dsimp only [PageOut.sys] at hpg
          split at h
          · split at h
            · rename_i a' ha'
              rw [ok_endCheck_cycle _ _ _ _ _ _ h (by simp),
                (setArgsOpt_frame st1 (some a'.id)).2.2, hpg]
            · rw [ok_endCheck_cycle _ _ _ _ _ _ h (by simp), hpg]
          · rw [ok_endCheck_cycle _ _ _ _ _ _ h (by simp), hpg]
    · intro st' e h
      simp only [crawlBody] at h
      split at h
      · exact absurd h (by simp)
      · rename_i a ha
        have hpg := dmfnp_cycle cfg lib net (some a.album_uid) st
        split at h
        · rename_i st1 e1 heq
          rw [heq] at hpg
          dsimp only [PageOut.sys] at hpg
          injection h with h1
          have h2 := congrArg (fun x => x.1) h1
          dsimp only at h2
          rw [← h2, hpg]
        · split at h
          · split at h <;> exact absurd h (by simp)
          · exact absurd h (by simp)
  | end_stage =>
    constructor
    · intro bs' st' evs h
      exact absurd h (by simp [crawlBody])
    · intro st' e h
      simp only [crawlBody] at h
      injection h with h1
      have h2 := congrArg (fun x => x.1) h1
      dsimp only at h2
      rw [← h2]

/-- The cycle counter along a crawl run advances by exactly the number of
`cycleEnd` events in the trace. -/
theorem crawlRun_cycle (cfg : Config) (lib : Library) (net : Net)
    (dl : Nat → Bool) :
    ∀ (n i : Nat) (ls : LoopState),
    (crawlRun cfg lib net dl n i ls).1.sys.currentCycle
      = ls.sys.currentCycle +
        (crawlRun cfg lib net dl n i ls).2.countP
          (fun e => decide (e = PageEvent.cycleEnd)) := by
  intro n
  induction n with
  | zero => intro i ls; rfl
  | succ k ih =>
    intro i ls
    rw [crawlRun_succ]
    dsimp only
    rw [List.countP_append, ih]
    have htick : (crawlTick cfg lib net dl i ls).1.sys.currentCycle
        = ls.sys.currentCycle +
          (crawlTick cfg lib net dl i ls).2.countP
            (fun e => decide (e = PageEvent.cycleEnd)) := by
      cases ls with
      | halted s => rfl
      | failed s e => rfl
      | go bs s =>
        rw [crawlTick]
        split
        · rfl
        · split
          · rename_i s1 e1 heq
            have hb := (crawlBody_cycle cfg lib net bs s).2 s1 e1 heq
            simpa [LoopState.sys] using hb
          · rename_i bs1 s1 evs1 heq
            have hb := (crawlBody_cycle cfg lib net bs s).1 bs1 s1 evs1 heq
            simpa [LoopState.sys] using hb
    rw [htick]
    omega

theorem mkAlbums_map_uid (cfg : Config) (cyc : Nat) :
    ∀ (ds : List AlbumDesc) (n : Nat),
    (mkAlbums cfg cyc ds n).map (fun r => r.album_uid) = ds.map (fun d => d.id) := by
  intro ds
  induction ds with
  | nil => intro n; rfl
  | cons d rest ih =>
    intro n
    simp only [mkAlbums, List.map_cons, ih]
    rfl

theorem get_user_album_by_uid_none (db : DB) (uid : Nat) (u : String)
    (h : ∀ r ∈ db.albums, r.album_uid ≠ u) :
    get_user_album_by_uid db uid u = none := by
  unfold get_user_album_by_uid
  rw [List.find?_eq_none]
  intro r hr
  simp [h r hr]

/-- Folding the album upsert over a page of all-new albums appends the
corresponding rows with consecutive autoincrement ids. -/
theorem upsert_album_fold_fresh (cfg : Config) :
    ∀ (descs : List AlbumDesc) (st : Sys),
    (∀ d ∈ descs, ∀ r ∈ st.db.albums, r.album_uid ≠ d.id) →
    ((descs.map (fun d => d.id)).Nodup) →
    (descs.foldl (upsert_album cfg) st).db.albums
      = st.db.albums ++ mkAlbums cfg st.currentCycle descs st.db.nextAlbumId ∧
    (descs.foldl (upsert_album cfg) st).db.nextAlbumId
      = st.db.nextAlbumId + descs.length ∧
    (descs.foldl (upsert_album cfg) st).db.options = st.db.options ∧
    (descs.foldl (upsert_album cfg) st).currentCycle = st.currentCycle := by
  intro descs
  induction descs with
  | nil =>
    intro st _ _
    exact ⟨by simp [mkAlbums], rfl, rfl, rfl⟩
  | cons d rest ih =>
    intro st hfresh hnodup
    have hn : get_user_album_by_uid st.db cfg.userId d.id = none :=
      get_user_album_by_uid_none _ _ _
        (fun r hr => hfresh d (List.mem_cons_self d rest) r hr)
    have hup : upsert_album cfg st d
        = { st with
            db := { st.db with
              albums := st.db.albums ++
                [mkAlbumRec cfg st.currentCycle d st.db.nextAlbumId],
              nextAlbumId := st.db.nextAlbumId + 1 },
            logs := st.logs ++ ["Album \"" ++ d.title ++ "\" added"] } := by
      unfold upsert_album
      rw [hn]
      rfl
    have hfr : ∀ d' ∈ rest, ∀ r ∈ (upsert_album cfg st d).db.albums,
        r.album_uid ≠ d'.id := by
      rw [hup]
      intro d' hd' r hr
      dsimp only at hr
      rw [List.mem_append] at hr
      rcases hr with hr | hr
      · exact hfresh d' (List.mem_cons_of_mem d hd') r hr
      · have hrd : r = mkAlbumRec cfg st.currentCycle d st.db.nextAlbumId := by
          simpa using hr
        subst hrd
        show d.id ≠ d'.id
        intro he
        rw [List.map_cons, List.nodup_cons] at hnodup
        exact hnodup.1 (he ▸ List.mem_map_of_mem (fun x => x.id) hd')
    have hnd : (rest.map (fun d => d.id)).Nodup := by
      rw [List.map_cons, List.nodup_cons] at hnodup
      exact hnodup.2
    obtain ⟨i1, i2, i3, i4⟩ := ih (upsert_album cfg st d) hfr hnd
    rw [hup] at i1 i2 i3 i4
    dsimp only at i1 i2 i3 i4
    rw [List.foldl_cons, hup]
    refine ⟨i1.trans ?_, i2.trans ?_, i3, i4⟩
    · rw [List.append_assoc]
      rfl
    · rw [List.length_cons]
      omega

theorem mkAlbums_by_id (cfg : Config) (cyc : Nat) :
    ∀ (ds : List AlbumDesc) (n k : Nat) (d : AlbumDesc), n ≤ k →
    ds[k - n]? = some d →
    (mkAlbums cfg cyc ds n).find?
        (fun r => decide (r.user_id = cfg.userId ∧ r.id = k))
      = some (mkAlbumRec cfg cyc d k) := by
  intro ds
  induction ds with
  | nil => intro n k d _ h; simp at h
  | cons d0 rest ih =>
    intro n k d hnk hget
    simp only [mkAlbums, List.find?_cons]
    by_cases hk : k = n
    · subst hk
      rw [Nat.sub_self] at hget
      simp only [List.getElem?_cons_zero, Option.some.injEq] at hget
      subst hget
      have hd : decide ((mkAlbumRec cfg cyc d0 k).user_id = cfg.userId ∧
          (mkAlbumRec cfg cyc d0 k).id = k) = true := by
        simp [mkAlbumRec]
      rw [hd]
    · have hlt : n < k := lt_of_le_of_ne hnk (fun e => hk e.symm)
      have hd : decide ((mkAlbumRec cfg cyc d0 n).user_id = cfg.userId ∧
          (mkAlbumRec cfg cyc d0 n).id = k) = false := by
        simp only [mkAlbumRec, decide_eq_false_iff_not]
        intro hc
        omega
      rw [hd]
      apply ih (n + 1) k d hlt
      have h3 : k - n = (k - (n + 1)) + 1 := by omega
      rw [h3] at hget
      simpa using hget

theorem mkAlbums_after (cfg : Config) (cyc : Nat) :
    ∀ (ds : List AlbumDesc) (n j : Nat),
    album_after (mkAlbums cfg cyc ds n) cfg.userId j
      = (match ds[max n (j + 1) - n]? with
         | some d => some (mkAlbumRec cfg cyc d (max n (j + 1)))
         | none => none) := by
  intro ds
  induction ds with
  | nil => intro n j; simp [mkAlbums, album_after]
  | cons d0 rest ih =>
    intro n j
    simp only [mkAlbums, album_after]
    by_cases hj : j < n
    · have hmax : max n (j + 1) = n := by omega
      have hmax2 : max (n + 1) (j + 1) = n + 1 := by omega
      rw [if_pos ⟨rfl, hj⟩, ih (n + 1) j, hmax, hmax2, Nat.sub_self, Nat.sub_self]
      cases rest with
      | nil => rfl
      | cons d1 r2 =>
        simp only [List.getElem?_cons_zero]
        rw [if_pos (by show n ≤ n + 1; omega)]
    · have h1 : max (n + 1) (j + 1) = j + 1 := by omega
      have h2 : max n (j + 1) = j + 1 := by omega
      rw [if_neg (fun hc => hj hc.2), ih (n + 1) j, h1, h2]
      have h3 : j + 1 - n = (j + 1 - (n + 1)) + 1 := by omega
      rw [h3, List.getElem?_cons_succ]

theorem tokFor_succ (p : Nat) : tokFor (p + 1) = some (p + 1) := by
  simp [tokFor]

theorem crawlTick_go (cfg : Config) (lib : Library) (net : Net)
    (dl : Nat → Bool) (i : Nat) (bs : BackupStage) (st : Sys)
    (hdl : dl i = false) :
    crawlTick cfg lib net dl i (.go bs st)
      = (match crawlBody cfg lib net bs st with
         | .error (st', e) => (.failed st' e, [])
         | .ok (bs', st', evs) => (.go bs' st', evs)) := by
  unfold crawlTick
  rw [hdl]
  exact rfl

/-- The albums listing page at a valid token. -/
theorem download_albums_ok (cfg : Config) (lib : Library) (st : Sys) (p : Nat)
    (hp : (pageTok st).getD 0 = p) (hlt : p < lib.albumPages.length) :
    download_albums_from_next_page cfg lib st
      = finishTok (lib.albumPages[p].foldl (upsert_album cfg) st)
          (if p + 1 < lib.albumPages.length then some (p + 1) else none) := by
  unfold download_albums_from_next_page listAlbums
  dsimp only
  rw [hp, List.getElem?_eq_getElem hlt]

/-- Phase 1, partial: `r` media pages starting after page `p`. -/
theorem media_phase_partial (cfg : Config) (lib : Library) (net : Net)
    (dl : Nat → Bool) (hnet : ∀ u, net u = .success)
    (hdl : ∀ i, dl i = false) :
    ∀ (r p i : Nat) (st : Sys),
    p + r < lib.mediaPages.length →
    pageTok st = tokFor p →
    ∃ st',
      crawlRun cfg lib net dl r i (.go .media_item st)
        = (.go .media_item st', (List.range' p r).map PageEvent.mediaPage) ∧
      pageTok st' = tokFor (p + r) ∧
      st'.db.albums = st.db.albums ∧
      st'.db.nextAlbumId = st.db.nextAlbumId ∧
      st'.currentCycle = st.currentCycle := by
  intro r
  induction r with
  | zero =>
    intro p i st hpr htok
    exact ⟨st, by rw [crawlRun_zero]; rfl, by rwa [Nat.add_zero], rfl, rfl, rfl⟩
  | succ k ih =>
    intro p i st hpr htok
    obtain ⟨stc, hdm, f1, f2, f3, f4⟩ :=
      download_mediaitems_ok cfg lib net none st p hnet
        (by rw [htok, tokFor_getD])
        (by simp only [pagesFor]; omega)
    simp only [pagesFor] at hdm
    have hplt : p + 1 < lib.mediaPages.length := by omega
    rw [if_pos hplt, if_pos hplt] at hdm
    have htick : crawlTick cfg lib net dl i (.go .media_item st)
        = (.go .media_item (setTok stc (some (p + 1))), [PageEvent.mediaPage p]) := by
      rw [crawlTick_go cfg lib net dl i .media_item st (hdl i)]
      simp only [crawlBody, htok, tokFor_getD, hdm]
      exact rfl
    obtain ⟨st', h1, t1, a1, n1, c1⟩ := ih (p + 1) (i + 1)
      (setTok stc (some (p + 1))) (by omega)
      (by rw [pageTok_setTok, tokFor_succ])
    refine ⟨st', ?_, ?_, ?_, ?_, ?_⟩
    · rw [crawlRun_succ, htick]
      dsimp only
      rw [h1, List.range'_succ, List.map_cons]
      rfl
    · rw [t1]
      congr 1
      omega
    · rw [a1, (setTok_frame stc (some (p + 1))).1, f1]
    · rw [n1, (setTok_frame stc (some (p + 1))).2.1, f2]
    · rw [c1, (setTok_frame stc (some (p + 1))).2.2, f4]

/-- Phase 1, complete: all remaining media pages, ending in stage ALBUM
with the token cleared. -/
theorem media_phase_complete (cfg : Config) (lib : Library) (net : Net)
    (dl : Nat → Bool) (hnet : ∀ u, net u = .success)
    (hdl : ∀ i, dl i = false) :
    ∀ (p i : Nat) (st : Sys),
    p < lib.mediaPages.length →
    pageTok st = tokFor p →
    ∃ st',
      crawlRun cfg lib net dl (lib.mediaPages.length - p) i (.go .media_item st)
        = (.go .album st',
           (List.range' p (lib.mediaPages.length - p)).map PageEvent.mediaPage) ∧
      pageTok st' = none ∧
      st'.db.albums = st.db.albums ∧
      st'.db.nextAlbumId = st.db.nextAlbumId ∧
      st'.currentCycle = st.currentCycle := by
  intro p i st hp htok
  obtain ⟨st1, h1, t1, a1, n1, c1⟩ :=
    media_phase_partial cfg lib net dl hnet hdl
      (lib.mediaPages.length - p - 1) p i st (by omega) htok
  have hp1 : p + (lib.mediaPages.length - p - 1) = lib.mediaPages.length - 1 := by
    omega
  obtain ⟨stc, hdm, f1, f2, f3, f4⟩ :=
    download_mediaitems_ok cfg lib net none st1 (lib.mediaPages.length - 1) hnet
      (by rw [t1, hp1, tokFor_getD])
      (by simp only [pagesFor]; omega)
  simp only [pagesFor] at hdm
  have hnlt : ¬ (lib.mediaPages.length - 1 + 1 < lib.mediaPages.length) := by omega
  rw [if_neg hnlt, if_neg hnlt] at hdm
  have htick : crawlTick cfg lib net dl (i + (lib.mediaPages.length - p - 1))
      (.go .media_item st1)
      = (.go .album (setStageOpt (setTok stc none) .album),
         [PageEvent.mediaPage (lib.mediaPages.length - 1)]) := by
    rw [crawlTick_go cfg lib net dl _ .media_item st1 (hdl _)]
    simp only [crawlBody, t1, hp1, tokFor_getD, hdm]
    exact rfl
  have hsplit : lib.mediaPages.length - p = (lib.mediaPages.length - p - 1) + 1 := by
    omega
  refine ⟨setStageOpt (setTok stc none) .album, ?_, ?_, ?_, ?_, ?_⟩
  · rw [hsplit, crawlRun_append cfg lib net dl (lib.mediaPages.length - p - 1) 1 i,
      h1]
    dsimp only
    rw [crawlRun_succ, htick]
    dsimp only
    rw [crawlRun_zero]
    dsimp only
    rw [List.append_nil]
    simp only [List.range'_concat, List.map_append, List.map_cons, List.map_nil,
      Nat.one_mul, hp1]
  · rw [pageTok_setStageOpt, pageTok_setTok]
  · rw [(setStageOpt_frame _ .album).1, (setTok_frame stc none).1, f1, a1]
  · rw [(setStageOpt_frame _ .album).2.1, (setTok_frame stc none).2.1, f2, n1]
  · rw [(setStageOpt_frame _ .album).2.2, (setTok_frame stc none).2.2, f4, c1]

theorem mkAlbums_append (cfg : Config) (cyc : Nat) :
    ∀ (xs ys : List AlbumDesc) (n : Nat),
    mkAlbums cfg cyc (xs ++ ys) n
      = mkAlbums cfg cyc xs n ++ mkAlbums cfg cyc ys (n + xs.length) := by
  intro xs
  induction xs with
  | nil => intro ys n; simp [mkAlbums]
  | cons x rest ih =>
    intro ys n
    rw [List.cons_append]
    simp only [mkAlbums]
    rw [ih ys (n + 1), List.length_cons,
      show n + (rest.length + 1) = n + 1 + rest.length by omega]
    rfl

theorem take_flatten_succ (l : List (List AlbumDesc)) (p : Nat)
    (hp : p < l.length) :
    (l.take (p + 1)).flatten = (l.take p).flatten ++ l[p] := by
  rw [List.take_succ, List.getElem?_eq_getElem hp]
  rw [List.flatten_append]
  simp

theorem all_descs_decomp (lib : Library) (p : Nat)
    (hp : p < lib.albumPages.length) :
    allAlbumDescs lib
      = (lib.albumPages.take p).flatten ++ lib.albumPages[p] ++
        (lib.albumPages.drop (p + 1)).flatten := by
  rw [allAlbumDescs]
  conv_lhs => rw [← List.take_append_drop (p + 1) lib.albumPages]
  rw [List.flatten_append, take_flatten_succ _ p hp]

/-- At every album page, the listed albums are new to the table built so
far, and mutually distinct. -/
theorem albums_fresh_at (lib : Library) (cfg : Config) (c0 : Nat) (p : Nat)
    (hp : p < lib.albumPages.length)
    (hnodup : ((allAlbumDescs lib).map (fun d => d.id)).Nodup) :
    (∀ d ∈ lib.albumPages[p],
      ∀ r ∈ mkAlbums cfg c0 ((lib.albumPages.take p).flatten) 1,
      r.album_uid ≠ d.id) ∧
    ((lib.albumPages[p].map (fun d => d.id)).Nodup) := by
  rw [all_descs_decomp lib p hp, List.map_append, List.map_append] at hnodup
  have h1 := (List.nodup_append.mp hnodup).1
  obtain ⟨_, hB, hdisj⟩ := List.nodup_append.mp h1
  constructor
  · intro d hd r hr
    have hu : r.album_uid ∈ ((lib.albumPages.take p).flatten).map (fun d => d.id) := by
      rw [← mkAlbums_map_uid cfg c0 ((lib.albumPages.take p).flatten) 1]
      exact List.mem_map_of_mem (fun r => r.album_uid) hr
    intro he
    exact hdisj hu (he ▸ List.mem_map_of_mem (fun d => d.id) hd)
  · exact hB

/-- Phase 2, partial: `r` album pages starting after page `p`, extending
the albums table with consecutively numbered rows. -/
theorem album_phase_partial (cfg : Config) (lib : Library) (net : Net)
    (dl : Nat → Bool) (hdl : ∀ i, dl i = false)
    (hnodup : ((allAlbumDescs lib).map (fun d => d.id)).Nodup) (c0 : Nat) :
    ∀ (r p i : Nat) (st : Sys),
    p + r < lib.albumPages.length →
    pageTok st = tokFor p →
    st.db.albums = mkAlbums cfg c0 ((lib.albumPages.take p).flatten) 1 →
    st.db.nextAlbumId = ((lib.albumPages.take p).flatten).length + 1 →
    st.currentCycle = c0 →
    ∃ st',
      crawlRun cfg lib net dl r i (.go .album st)
        = (.go .album st', (List.range' p r).map PageEvent.albumPage) ∧
      pageTok st' = tokFor (p + r) ∧
      st'.db.albums = mkAlbums cfg c0 ((lib.albumPages.take (p + r)).flatten) 1 ∧
      st'.db.nextAlbumId = ((lib.albumPages.take (p + r)).flatten).length + 1 ∧
      st'.currentCycle = c0 := by
  intro r
  induction r with
  | zero =>
    intro p i st hpr htok ha hn hc
    exact ⟨st, by rw [crawlRun_zero]; rfl, by rwa [Nat.add_zero], by rwa [Nat.add_zero],
      by rwa [Nat.add_zero], hc⟩
  | succ k ih =>
    intro p i st hpr htok ha hn hc
    have hplt : p < lib.albumPages.length := by omega
    have hda := download_albums_ok cfg lib st p (by rw [htok, tokFor_getD]) hplt
    rw [if_pos (by omega)] at hda
    obtain ⟨hfresh, hnd⟩ := albums_fresh_at lib cfg c0 p hplt hnodup
    obtain ⟨u1, u2, u3, u4⟩ := upsert_album_fold_fresh cfg lib.albumPages[p] st
      (by rw [ha]; exact hfresh) hnd
    have htick : crawlTick cfg lib net dl i (.go .album st)
        = (.go .album (setTok (lib.albumPages[p].foldl (upsert_album cfg) st)
            (some (p + 1))), [PageEvent.albumPage p]) := by
      rw [crawlTick_go cfg lib net dl i .album st (hdl i)]
      simp only [crawlBody, htok, tokFor_getD, hda]
      exact rfl
    have hfa : (setTok (lib.albumPages[p].foldl (upsert_album cfg) st)
        (some (p + 1))).db.albums
        = mkAlbums cfg c0 ((lib.albumPages.take (p + 1)).flatten) 1 := by
      rw [(setTok_frame _ _).1, u1, ha, hc, hn, take_flatten_succ _ p hplt,
        mkAlbums_append,
        Nat.add_comm 1 ((lib.albumPages.take p).flatten.length)]
    have hfn : (setTok (lib.albumPages[p].foldl (upsert_album cfg) st)
        (some (p + 1))).db.nextAlbumId
        = ((lib.albumPages.take (p + 1)).flatten).length + 1 := by
      rw [(setTok_frame _ _).2.1, u2, hn, take_flatten_succ _ p hplt,
        List.length_append]
      omega
    obtain ⟨st', h1, t1, a1, n1, c1⟩ := ih (p + 1) (i + 1)
      (setTok (lib.albumPages[p].foldl (upsert_album cfg) st) (some (p + 1)))
      (by omega) (by rw [pageTok_setTok, tokFor_succ]) hfa hfn
      (by rw [(setTok_frame _ _).2.2, u4, hc])
    refine ⟨st', ?_, ?_, ?_, ?_, c1⟩
    · rw [crawlRun_succ, htick]
      dsimp only
      rw [h1, List.range'_succ, List.map_cons]
      rfl
    · rw [show p + (k + 1) = p + 1 + k by omega]
      exact t1
    · rw [show p + (k + 1) = p + 1 + k by omega]
      exact a1
    · rw [show p + (k + 1) = p + 1 + k by omega]
      exact n1

/-- Phase 2, complete, at least one album listed: ends in stage
ALBUM_ITEM with StageArgs pointing at the first album (id 1). -/
theorem album_phase_complete_some (cfg : Config) (lib : Library) (net : Net)
    (dl : Nat → Bool) (hdl : ∀ i, dl i = false)
    (hnodup : ((allAlbumDescs lib).map (fun d => d.id)).Nodup) (c0 : Nat)
    (d0 : AlbumDesc) (hd0 : (allAlbumDescs lib)[0]? = some d0) :
    ∀ (p i : Nat) (st : Sys),
    p < lib.albumPages.length →
    pageTok st = tokFor p →
    st.db.albums = mkAlbums cfg c0 ((lib.albumPages.take p).flatten) 1 →
    st.db.nextAlbumId = ((lib.albumPages.take p).flatten).length + 1 →
    st.currentCycle = c0 →
    ∃ st',
      crawlRun cfg lib net dl (lib.albumPages.length - p) i (.go .album st)
        = (.go .album_item st',
           (List.range' p (lib.albumPages.length - p)).map PageEvent.albumPage) ∧
      pageTok st' = none ∧
      argsOptNat st' = 1 ∧
      st'.db.albums = mkAlbums cfg c0 (allAlbumDescs lib) 1 ∧
      st'.currentCycle = c0 := by
  intro p i st hp htok ha hn hc
  obtain ⟨st1, h1, t1, a1, n1, c1⟩ := album_phase_partial cfg lib net dl hdl
    hnodup c0 (lib.albumPages.length - p - 1) p i st (by omega) htok ha hn hc
  have hp1 : p + (lib.albumPages.length - p - 1) = lib.albumPages.length - 1 := by
    omega
  rw [hp1] at t1 a1 n1
  have hplt : lib.albumPages.length - 1 < lib.albumPages.length := by omega
  have hda := download_albums_ok cfg lib st1 (lib.albumPages.length - 1)
    (by rw [t1, tokFor_getD]) hplt
  rw [if_neg (by omega)] at hda
  obtain ⟨hfresh, hnd⟩ := albums_fresh_at lib cfg c0 (lib.albumPages.length - 1)
    hplt hnodup
  obtain ⟨u1, u2, u3, u4⟩ := upsert_album_fold_fresh cfg
    lib.albumPages[lib.albumPages.length - 1] st1 (by rw [a1]; exact hfresh) hnd
  have hfull : (lib.albumPages[lib.albumPages.length - 1].foldl
      (upsert_album cfg) st1).db.albums
      = mkAlbums cfg c0 (allAlbumDescs lib) 1 := by
    rw [u1, a1, c1, n1,
      Nat.add_comm ((lib.albumPages.take (lib.albumPages.length - 1)).flatten.length) 1,
      ← mkAlbums_append, ← take_flatten_succ _ (lib.albumPages.length - 1) hplt,
      show lib.albumPages.length - 1 + 1 = lib.albumPages.length by omega,
      List.take_length]
    rfl
  have hafter : get_user_album_after
      (setTok (lib.albumPages[lib.albumPages.length - 1].foldl (upsert_album cfg)
        st1) none).db cfg.userId 0
      = some (mkAlbumRec cfg c0 d0 1) := by
    show album_after (lib.albumPages[lib.albumPages.length - 1].foldl
      (upsert_album cfg) st1).db.albums cfg.userId 0 = _
    rw [hfull, mkAlbums_after]
    simp [hd0]
  have htick : crawlTick cfg lib net dl (i + (lib.albumPages.length - p - 1))
      (.go .album st1)
      = (.go .album_item
          (setStageOpt (setArgsOpt (setTok
            (lib.albumPages[lib.albumPages.length - 1].foldl (upsert_album cfg) st1)
            none) (some 1)) .album_item),
         [PageEvent.albumPage (lib.albumPages.length - 1)]) := by
    rw [crawlTick_go cfg lib net dl _ .album st1 (hdl _)]
    simp only [crawlBody, t1, tokFor_getD, hda, finishTok, hafter]
    exact rfl
  refine ⟨setStageOpt (setArgsOpt (setTok
      (lib.albumPages[lib.albumPages.length - 1].foldl (upsert_album cfg) st1)
      none) (some 1)) .album_item, ?_, ?_, ?_, ?_, ?_⟩
  · rw [show lib.albumPages.length - p = (lib.albumPages.length - p - 1) + 1 by omega,
      crawlRun_append cfg lib net dl (lib.albumPages.length - p - 1) 1 i, h1]
    dsimp only
    rw [crawlRun_succ, htick]
    dsimp only
    rw [crawlRun_zero]
    dsimp only
    rw [List.append_nil]
    simp only [List.range'_concat, List.map_append, List.map_cons, List.map_nil,
      Nat.one_mul, hp1]
  · rw [pageTok_setStageOpt, pageTok_setArgsOpt, pageTok_setTok]
  · rw [argsOptNat_setStageOpt, argsOptNat_setArgsOpt]
  · rw [(setStageOpt_frame _ _).1, (setArgsOpt_frame _ _).1, (setTok_frame _ _).1,
      hfull]
  · rw [(setStageOpt_frame _ _).2.2, (setArgsOpt_frame _ _).2.2,
      (setTok_frame _ _).2.2, u4, c1]

/-- Phase 2, complete, no albums listed at all: the traversal ends in the
same iteration, the END block runs and the cycle is incremented. -/
theorem album_phase_complete_none (cfg : Config) (lib : Library) (net : Net)
    (dl : Nat → Bool) (hdl : ∀ i, dl i = false)
    (hnodup : ((allAlbumDescs lib).map (fun d => d.id)).Nodup) (c0 : Nat)
    (hd0 : allAlbumDescs lib = []) :
    ∀ (p i : Nat) (st : Sys),
    p < lib.albumPages.length →
    pageTok st = tokFor p →
    st.db.albums = mkAlbums cfg c0 ((lib.albumPages.take p).flatten) 1 →
    st.db.nextAlbumId = ((lib.albumPages.take p).flatten).length + 1 →
    st.currentCycle = c0 →
    ∃ F,
      crawlRun cfg lib net dl (lib.albumPages.length - p) i (.go .album st)
        = (.go .media_item F,
           (List.range' p (lib.albumPages.length - p)).map PageEvent.albumPage ++
             [PageEvent.cycleEnd]) ∧
      get_user_option F.db.options "backup-stage" = some (.s "mediaitem") ∧
      get_user_option F.db.options "backup-stage-args" = none ∧
      F.currentCycle = c0 + 1 ∧
      get_user_option F.db.options "current-cycle" = some (.n (c0 + 1)) := by
  intro p i st hp htok ha hn hc
  obtain ⟨st1, h1, t1, a1, n1, c1⟩ := album_phase_partial cfg lib net dl hdl
    hnodup c0 (lib.albumPages.length - p - 1) p i st (by omega) htok ha hn hc
  have hp1 : p + (lib.albumPages.length - p - 1) = lib.albumPages.length - 1 := by
    omega
  rw [hp1] at t1 a1 n1
  have hplt : lib.albumPages.length - 1 < lib.albumPages.length := by omega
  have hda := download_albums_ok cfg lib st1 (lib.albumPages.length - 1)
    (by rw [t1, tokFor_getD]) hplt
  rw [if_neg (by omega)] at hda
  obtain ⟨hfresh, hnd⟩ := albums_fresh_at lib cfg c0 (lib.albumPages.length - 1)
    hplt hnodup
  obtain ⟨u1, u2, u3, u4⟩ := upsert_album_fold_fresh cfg
    lib.albumPages[lib.albumPages.length - 1] st1 (by rw [a1]; exact hfresh) hnd
  have hfull : (lib.albumPages[lib.albumPages.length - 1].foldl
      (upsert_album cfg) st1).db.albums
      = mkAlbums cfg c0 (allAlbumDescs lib) 1 := by
    rw [u1, a1, c1, n1,
      Nat.add_comm ((lib.albumPages.take (lib.albumPages.length - 1)).flatten.length) 1,
      ← mkAlbums_append, ← take_flatten_succ _ (lib.albumPages.length - 1) hplt,
      show lib.albumPages.length - 1 + 1 = lib.albumPages.length by omega,
      List.take_length]
    rfl
  have hafter : get_user_album_after
      (setTok (lib.albumPages[lib.albumPages.length - 1].foldl (upsert_album cfg)
        st1) none).db cfg.userId 0 = none := by
    show album_after (lib.albumPages[lib.albumPages.length - 1].foldl
      (upsert_album cfg) st1).db.albums cfg.userId 0 = _
    rw [hfull, hd0]
    rfl
  have htick : crawlTick cfg lib net dl (i + (lib.albumPages.length - p - 1))
      (.go .album st1)
      = (.go .media_item
          (endCycle (setTok (lib.albumPages[lib.albumPages.length - 1].foldl
            (upsert_album cfg) st1) none)),
         [PageEvent.albumPage (lib.albumPages.length - 1), PageEvent.cycleEnd]) := by
    rw [crawlTick_go cfg lib net dl _ .album st1 (hdl _)]
    simp only [crawlBody, t1, tokFor_getD, hda, finishTok, hafter]
    exact rfl
  obtain ⟨o1, o2, o3, o4⟩ := endCycle_options (setTok
    (lib.albumPages[lib.albumPages.length - 1].foldl (upsert_album cfg) st1) none)
  have hcyc : (setTok (lib.albumPages[lib.albumPages.length - 1].foldl
      (upsert_album cfg) st1) none).currentCycle = c0 := by
    rw [(setTok_frame _ _).2.2, u4, c1]
  refine ⟨endCycle (setTok (lib.albumPages[lib.albumPages.length - 1].foldl
      (upsert_album cfg) st1) none), ?_, o1, o2, ?_, ?_⟩
  · rw [show lib.albumPages.length - p = (lib.albumPages.length - p - 1) + 1 by omega,
      crawlRun_append cfg lib net dl (lib.albumPages.length - p - 1) 1 i, h1]
    dsimp only
    rw [crawlRun_succ, htick]
    dsimp only
    rw [crawlRun_zero]
    dsimp only
    rw [List.append_nil]
    simp only [List.range'_concat, List.map_append, List.map_cons, List.map_nil,
      Nat.one_mul, hp1, List.append_assoc]
    rfl
  · rw [o4, hcyc]
  · rw [o3, hcyc]

theorem argsOptNat_congr (st1 st2 : Sys) (h : st1.db.options = st2.db.options) :
    argsOptNat st1 = argsOptNat st2 := by
  unfold argsOptNat
  rw [h]

/-- Phase 3, partial: `r` pages of album `k` (internal id `k`, the
`k`-th listed album). -/
theorem album_items_partial (cfg : Config) (lib : Library) (net : Net)
    (dl : Nat → Bool) (hnet : ∀ u, net u = .success)
    (hdl : ∀ i, dl i = false) (c0 : Nat) (d : AlbumDesc) (k : Nat)
    (hk1 : 1 ≤ k) (hd : (allAlbumDescs lib)[k - 1]? = some d) :
    ∀ (r q i : Nat) (st : Sys),
    q + r < (lib.albumItems d.id).length →
    pageTok st = tokFor q →
    argsOptNat st = k →
    st.db.albums = mkAlbums cfg c0 (allAlbumDescs lib) 1 →
    st.currentCycle = c0 →
    ∃ st',
      crawlRun cfg lib net dl r i (.go .album_item st)
        = (.go .album_item st',
           (List.range' q r).map (PageEvent.albumItemPage k d.id)) ∧
      pageTok st' = tokFor (q + r) ∧
      argsOptNat st' = k ∧
      st'.db.albums = mkAlbums cfg c0 (allAlbumDescs lib) 1 ∧
      st'.currentCycle = c0 := by
  intro r
  induction r with
  | zero =>
    intro q i st hqr htok hargs ha hc
    exact ⟨st, by rw [crawlRun_zero]; rfl, by rwa [Nat.add_zero], hargs, ha, hc⟩
  | succ j ih =>
    intro q i st hqr htok hargs ha hc
    have hbyid : get_user_album_by_id st.db cfg.userId k
        = some (mkAlbumRec cfg c0 d k) := by
      unfold get_user_album_by_id
      rw [ha]
      exact mkAlbums_by_id cfg c0 (allAlbumDescs lib) 1 k d hk1 hd
    obtain ⟨stc, hdm, f1, f2, f3, f4⟩ :=
      download_mediaitems_ok cfg lib net (some d.id) st q hnet
        (by rw [htok, tokFor_getD])
        (by simp only [pagesFor]; omega)
    simp only [pagesFor] at hdm
    have hplt : q + 1 < (lib.albumItems d.id).length := by omega
    rw [if_pos hplt, if_pos hplt] at hdm
    have htick : crawlTick cfg lib net dl i (.go .album_item st)
        = (.go .album_item (setTok stc (some (q + 1))),
           [PageEvent.albumItemPage k d.id q]) := by
      rw [crawlTick_go cfg lib net dl i .album_item st (hdl i)]
      simp only [crawlBody, hargs, htok, tokFor_getD]
      rw [if_neg (show ¬ (k = 0) by omega), hbyid]
      simp only [mkAlbumRec, hdm]
      exact rfl
    obtain ⟨st', h1, t1, g1, a1, c1⟩ := ih (q + 1) (i + 1)
      (setTok stc (some (q + 1))) (by omega)
      (by rw [pageTok_setTok, tokFor_succ])
      (by rw [argsOptNat_setTok, argsOptNat_congr stc st f3]; exact hargs)
      (by rw [(setTok_frame _ _).1, f1, ha])
      (by rw [(setTok_frame _ _).2.2, f4, hc])
    refine ⟨st', ?_, ?_, g1, a1, c1⟩
    · rw [crawlRun_succ, htick]
      dsimp only
      rw [h1, List.range'_succ, List.map_cons]
      rfl
    · rw [t1]
      congr 1
      omega

/-- Phase 3: all remaining pages of album `k` when a later album exists —
StageArgs advances to album `k+1` and the stage stays ALBUM_ITEM. -/
theorem album_k_complete_next (cfg : Config) (lib : Library) (net : Net)
    (dl : Nat → Bool) (hnet : ∀ u, net u = .success)
    (hdl : ∀ i, dl i = false) (c0 : Nat) (d d' : AlbumDesc) (k : Nat)
    (hk1 : 1 ≤ k) (hd : (allAlbumDescs lib)[k - 1]? = some d)
    (hd' : (allAlbumDescs lib)[k]? = some d') :
    ∀ (q i : Nat) (st : Sys),
    q < (lib.albumItems d.id).length →
    pageTok st = tokFor q →
    argsOptNat st = k →
    st.db.albums = mkAlbums cfg c0 (allAlbumDescs lib) 1 →
    st.currentCycle = c0 →
    ∃ st',
      crawlRun cfg lib net dl ((lib.albumItems d.id).length - q) i
          (.go .album_item st)
        = (.go .album_item st',
           (List.range' q ((lib.albumItems d.id).length - q)).map
             (PageEvent.albumItemPage k d.id)) ∧
      pageTok st' = none ∧
      argsOptNat st' = k + 1 ∧
      st'.db.albums = mkAlbums cfg c0 (allAlbumDescs lib) 1 ∧
      st'.currentCycle = c0 := by
  intro q i st hq htok hargs ha hc
  obtain ⟨st1, h1, t1, g1, a1, c1⟩ := album_items_partial cfg lib net dl hnet hdl
    c0 d k hk1 hd ((lib.albumItems d.id).length - q - 1) q i st (by omega)
    htok hargs ha hc
  have hp1 : q + ((lib.albumItems d.id).length - q - 1)
      = (lib.albumItems d.id).length - 1 := by omega
  rw [hp1] at t1
  have hbyid : get_user_album_by_id st1.db cfg.userId k
      = some (mkAlbumRec cfg c0 d k) := by
    unfold get_user_album_by_id
    rw [a1]
    exact mkAlbums_by_id cfg c0 (allAlbumDescs lib) 1 k d hk1 hd
  obtain ⟨stc, hdm, f1, f2, f3, f4⟩ :=
    download_mediaitems_ok cfg lib net (some d.id) st1
      ((lib.albumItems d.id).length - 1) hnet (by rw [t1, tokFor_getD])
      (by simp only [pagesFor]; omega)
  simp only [pagesFor] at hdm
  have hnlt : ¬ ((lib.albumItems d.id).length - 1 + 1
      < (lib.albumItems d.id).length) := by omega
  rw [if_neg hnlt, if_neg hnlt] at hdm
  have hafter : get_user_album_after (setTok stc none).db cfg.userId k
      = some (mkAlbumRec cfg c0 d' (k + 1)) := by
    show album_after (setTok stc none).db.albums cfg.userId k = _
    have hsa : (setTok stc none).db.albums
        = mkAlbums cfg c0 (allAlbumDescs lib) 1 := by
      rw [(setTok_frame _ _).1, f1, a1]
    rw [hsa, mkAlbums_after]
    rw [show max 1 (k + 1) = k + 1 by omega]
    simp [hd']
  have htick : crawlTick cfg lib net dl (i + ((lib.albumItems d.id).length - q - 1))
      (.go .album_item st1)
      = (.go .album_item (setArgsOpt (setTok stc none) (some (k + 1))),
         [PageEvent.albumItemPage k d.id ((lib.albumItems d.id).length - 1)]) := by
    rw [crawlTick_go cfg lib net dl _ .album_item st1 (hdl _)]
    simp only [crawlBody, g1, t1, tokFor_getD]
    rw [if_neg (show ¬ (k = 0) by omega), hbyid]
    simp only [mkAlbumRec, hdm, hafter]
    exact rfl
  refine ⟨setArgsOpt (setTok stc none) (some (k + 1)), ?_, ?_, ?_, ?_, ?_⟩
  · rw [show (lib.albumItems d.id).length - q
        = ((lib.albumItems d.id).length - q - 1) + 1 by omega,
      crawlRun_append cfg lib net dl ((lib.albumItems d.id).length - q - 1) 1 i, h1]
    dsimp only
    rw [crawlRun_succ, htick]
    dsimp only
    rw [crawlRun_zero]
    dsimp only
    rw [List.append_nil]
    simp only [List.range'_concat, List.map_append, List.map_cons, List.map_nil,
      Nat.one_mul, hp1]
  · rw [pageTok_setArgsOpt, pageTok_setTok]
  · rw [argsOptNat_setArgsOpt]
  · rw [(setArgsOpt_frame _ _).1, (setTok_frame _ _).1, f1, a1]
  · rw [(setArgsOpt_frame _ _).2.2, (setTok_frame _ _).2.2, f4, c1]

/-- Phase 3: all remaining pages of the last album — the iteration
reaches END, the stage resets to MEDIA_ITEM, StageArgs is deleted and the
cycle counter is incremented and persisted. -/
theorem album_k_complete_last (cfg : Config) (lib : Library) (net : Net)
    (dl : Nat → Bool) (hnet : ∀ u, net u = .success)
    (hdl : ∀ i, dl i = false) (c0 : Nat) (d : AlbumDesc) (k : Nat)
    (hk1 : 1 ≤ k) (hd : (allAlbumDescs lib)[k - 1]? = some d)
    (hd' : (allAlbumDescs lib)[k]? = none) :
    ∀ (q i : Nat) (st : Sys),
    q < (lib.albumItems d.id).length →
    pageTok st = tokFor q →
    argsOptNat st = k →
    st.db.albums = mkAlbums cfg c0 (allAlbumDescs lib) 1 →
    st.currentCycle = c0 →
    ∃ F,
      crawlRun cfg lib net dl ((lib.albumItems d.id).length - q) i
          (.go .album_item st)
        = (.go .media_item F,
           (List.range' q ((lib.albumItems d.id).length - q)).map
             (PageEvent.albumItemPage k d.id) ++ [PageEvent.cycleEnd]) ∧
      get_user_option F.db.options "backup-stage" = some (.s "mediaitem") ∧
      get_user_option F.db.options "backup-stage-args" = none ∧
      F.currentCycle = c0 + 1 ∧
      get_user_option F.db.options "current-cycle" = some (.n (c0 + 1)) := by
  intro q i st hq htok hargs ha hc
  obtain ⟨st1, h1, t1, g1, a1, c1⟩ := album_items_partial cfg lib net dl hnet hdl
    c0 d k hk1 hd ((lib.albumItems d.id).length - q - 1) q i st (by omega)
    htok hargs ha hc
  have hp1 : q + ((lib.albumItems d.id).length - q - 1)
      = (lib.albumItems d.id).length - 1 := by omega
  rw [hp1] at t1
  have hbyid : get_user_album_by_id st1.db cfg.userId k
      = some (mkAlbumRec cfg c0 d k) := by
    unfold get_user_album_by_id
    rw [a1]
    exact mkAlbums_by_id cfg c0 (allAlbumDescs lib) 1 k d hk1 hd
  obtain ⟨stc, hdm, f1, f2, f3, f4⟩ :=
    download_mediaitems_ok cfg lib net (some d.id) st1
      ((lib.albumItems d.id).length - 1) hnet (by rw [t1, tokFor_getD])
      (by simp only [pagesFor]; omega)
  simp only [pagesFor] at hdm
  have hnlt : ¬ ((lib.albumItems d.id).length - 1 + 1
      < (lib.albumItems d.id).length) := by omega
  rw [if_neg hnlt, if_neg hnlt] at hdm
  have hafter : get_user_album_after (setTok stc none).db cfg.userId k = none := by
    show album_after (setTok stc none).db.albums cfg.userId k = _
    have hsa : (setTok stc none).db.albums
        = mkAlbums cfg c0 (allAlbumDescs lib) 1 := by
      rw [(setTok_frame _ _).1, f1, a1]
    rw [hsa, mkAlbums_after]
    rw [show max 1 (k + 1) = k + 1 by omega]
    simp [hd']
  have htick : crawlTick cfg lib net dl (i + ((lib.albumItems d.id).length - q - 1))
      (.go .album_item st1)
      = (.go .media_item (endCycle (setTok stc none)),
         [PageEvent.albumItemPage k d.id ((lib.albumItems d.id).length - 1),
          PageEvent.cycleEnd]) := by
    rw [crawlTick_go cfg lib net dl _ .album_item st1 (hdl _)]
    simp only [crawlBody, g1, t1, tokFor_getD]
    rw [if_neg (show ¬ (k = 0) by omega), hbyid]
    simp only [mkAlbumRec, hdm, hafter]
    exact rfl
  obtain ⟨o1, o2, o3, o4⟩ := endCycle_options (setTok stc none)
  have hcyc : (setTok stc none).currentCycle = c0 := by
    rw [(setTok_frame _ _).2.2, f4, c1]
  refine ⟨endCycle (setTok stc none), ?_, o1, o2, ?_, ?_⟩
  · rw [show (lib.albumItems d.id).length - q
        = ((lib.albumItems d.id).length - q - 1) + 1 by omega,
      crawlRun_append cfg lib net dl ((lib.albumItems d.id).length - q - 1) 1 i, h1]
    dsimp only
    rw [crawlRun_succ, htick]
    dsimp only
    rw [crawlRun_zero]
    dsimp only
    rw [List.append_nil]
    simp only [List.range'_concat, List.map_append, List.map_cons, List.map_nil,
      Nat.one_mul, hp1, List.append_assoc]
    rfl
  · rw [o4, hcyc]
  · rw [o3, hcyc]

/-- Phase 3, all remaining albums from the `k`-th on (in ascending
internal id order), ending in the END bookkeeping. -/
theorem album_items_all (cfg : Config) (lib : Library) (net : Net)
    (dl : Nat → Bool) (hnet : ∀ u, net u = .success)
    (hdl : ∀ i, dl i = false) (c0 : Nat)
    (hK : ∀ dd ∈ allAlbumDescs lib, lib.albumItems dd.id ≠ []) :
    ∀ (ds : List AlbumDesc) (k : Nat), 1 ≤ k → ds ≠ [] →
    (allAlbumDescs lib).drop (k - 1) = ds →
    ∀ (i : Nat) (st : Sys),
    pageTok st = none →
    argsOptNat st = k →
    st.db.albums = mkAlbums cfg c0 (allAlbumDescs lib) 1 →
    st.currentCycle = c0 →
    ∃ F,
      crawlRun cfg lib net dl
          ((ds.map (fun dd => (lib.albumItems dd.id).length)).sum) i
          (.go .album_item st)
        = (.go .media_item F, albumTrace lib ds k ++ [PageEvent.cycleEnd]) ∧
      get_user_option F.db.options "backup-stage" = some (.s "mediaitem") ∧
      get_user_option F.db.options "backup-stage-args" = none ∧
      F.currentCycle = c0 + 1 ∧
      get_user_option F.db.options "current-cycle" = some (.n (c0 + 1)) := by
  intro ds
  induction ds with
  | nil => intro k _ hne _; exact absurd rfl hne
  | cons d rest ih =>
    intro k hk1 hne hdrop i st htok hargs ha hc
    have hd : (allAlbumDescs lib)[k - 1]? = some d := by
      have h0 : ((allAlbumDescs lib).drop (k - 1))[0]? = (allAlbumDescs lib)[k - 1 + 0]? :=
        List.getElem?_drop _ _ _
      rw [hdrop] at h0
      simpa using h0.symm
    have hmem : d ∈ allAlbumDescs lib := by
      have h1 := List.getElem?_eq_some.mp hd
      obtain ⟨hlt, hev⟩ := h1
      exact hev ▸ List.getElem_mem hlt
    have hP : 0 < (lib.albumItems d.id).length :=
      List.length_pos.mpr (hK d hmem)
    have hdropk : (allAlbumDescs lib).drop k = rest := by
      have h4 : ((allAlbumDescs lib).drop (k - 1)).tail = rest := by rw [hdrop]; rfl
      rw [List.tail_drop] at h4
      rwa [show k - 1 + 1 = k by omega] at h4
    have htok0 : pageTok st = tokFor 0 := by rw [htok]; rfl
    cases rest with
    | nil =>
      have hd' : (allAlbumDescs lib)[k]? = none := by
        have h0 : ((allAlbumDescs lib).drop k)[0]? = (allAlbumDescs lib)[k + 0]? :=
          List.getElem?_drop _ _ _
        rw [hdropk] at h0
        simpa using h0.symm
      obtain ⟨F, hF, p1, p2, p3, p4⟩ := album_k_complete_last cfg lib net dl hnet
        hdl c0 d k hk1 hd hd' 0 i st hP htok0 hargs ha hc
      rw [Nat.sub_zero] at hF
      refine ⟨F, ?_, p1, p2, p3, p4⟩
      rw [List.map_cons, List.map_nil, List.sum_cons, List.sum_nil, Nat.add_zero,
        hF, albumTrace, albumTrace, List.append_nil, List.range_eq_range']
    | cons d2 rest2 =>
      have hd' : (allAlbumDescs lib)[k]? = some d2 := by
        have h0 : ((allAlbumDescs lib).drop k)[0]? = (allAlbumDescs lib)[k + 0]? :=
          List.getElem?_drop _ _ _
        rw [hdropk] at h0
        simpa using h0.symm
      obtain ⟨st2, h2, t2, g2, a2, c2⟩ := album_k_complete_next cfg lib net dl hnet
        hdl c0 d d2 k hk1 hd hd' 0 i st hP htok0 hargs ha hc
      rw [Nat.sub_zero] at h2
      obtain ⟨F, hF, p1, p2, p3, p4⟩ := ih (k + 1) (by omega) (by simp)
        (by rw [show k + 1 - 1 = k by omega, hdropk]) (i + (lib.albumItems d.id).length)
        st2 t2 g2 a2 c2
      refine ⟨F, ?_, p1, p2, p3, p4⟩
      rw [List.map_cons, List.sum_cons,
        crawlRun_append cfg lib net dl (lib.albumItems d.id).length _ i, h2]
      dsimp only
      rw [hF]
      dsimp only
      conv_rhs => rw [albumTrace, List.range_eq_range']
      rw [List.append_assoc]

theorem countP_cycleEnd_mediaPages (l : List Nat) :
    (l.map PageEvent.mediaPage).countP
      (fun e => decide (e = PageEvent.cycleEnd)) = 0 := by
  induction l with
  | nil => rfl
  | cons x xs ih => rw [List.map_cons, List.countP_cons, ih]; rfl

theorem countP_cycleEnd_albumPages (l : List Nat) :
    (l.map PageEvent.albumPage).countP
      (fun e => decide (e = PageEvent.cycleEnd)) = 0 := by
  induction l with
  | nil => rfl
  | cons x xs ih => rw [List.map_cons, List.countP_cons, ih]; rfl

theorem countP_cycleEnd_albumItemPages (n : Nat) (uid : String) (l : List Nat) :
    (l.map (PageEvent.albumItemPage n uid)).countP
      (fun e => decide (e = PageEvent.cycleEnd)) = 0 := by
  induction l with
  | nil => rfl
  | cons x xs ih => rw [List.map_cons, List.countP_cons, ih]; rfl

theorem countP_cycleEnd_albumTrace (lib : Library) :
    ∀ (ds : List AlbumDesc) (n : Nat),
    (albumTrace lib ds n).countP
      (fun e => decide (e = PageEvent.cycleEnd)) = 0 := by
  intro ds
  induction ds with
  | nil => intro n; rfl
  | cons d rest ih =>
    intro n
    rw [albumTrace, List.countP_append, ih,
      countP_cycleEnd_albumItemPages n d.id]

theorem expectedTrace_cycleEnd_once (lib : Library) :
    (expectedTrace lib).countP
      (fun e => decide (e = PageEvent.cycleEnd)) = 1 := by
  rw [expectedTrace, List.countP_append, List.countP_append, List.countP_append,
    countP_cycleEnd_mediaPages, countP_cycleEnd_albumPages,
    countP_cycleEnd_albumTrace]
  rfl

/-- C1: one full traversal of the crawl state machine over a fixed remote
library with `M` media pages, `A` album pages, and `K` albums (album ids
distinct, every transfer succeeding, the watchdog deadline never lapsing,
each album exposing at least one page, the library exposing at least one
media page and one album page), started from a fresh database at stage
`MEDIA_ITEM`: the `totalPages lib` loop iterations process exactly the
media pages `0..M-1`, then the album pages `0..A-1`, then the pages of
each of the `K` albums in ascending internal-id order (`expectedTrace`),
and the traversal ends back at stage `MEDIA_ITEM` with the persisted
stage `mediaitem`, the stage args cleared, and the persisted cycle
counter incremented exactly once — the trace carries exactly one
`cycleEnd` event and the final cycle value is `0 + 1`. -/
theorem c1_full_traversal (cfg : Config) (lib : Library) (net : Net)
    (dl : Nat → Bool) (hnet : ∀ u, net u = .success)
    (hdl : ∀ i, dl i = false)
    (hM : 0 < lib.mediaPages.length) (hA : 0 < lib.albumPages.length)
    (hnodup : ((allAlbumDescs lib).map (fun d => d.id)).Nodup)
    (hK : ∀ dd ∈ allAlbumDescs lib, lib.albumItems dd.id ≠ []) :
    ∃ F,
      crawlRun cfg lib net dl (totalPages lib) 0 (.go .media_item freshSys)
        = (.go .media_item F, expectedTrace lib) ∧
      get_user_option F.db.options "backup-stage" = some (.s "mediaitem") ∧
      get_user_option F.db.options "backup-stage-args" = none ∧
      F.currentCycle = 1 ∧
      get_user_option F.db.options "current-cycle" = some (.n 1) ∧
      (expectedTrace lib).countP
        (fun e => decide (e = PageEvent.cycleEnd)) = 1 := by
  obtain ⟨st1, h1, t1, a1, n1, c1⟩ :=
    media_phase_complete cfg lib net dl hnet hdl 0 0 freshSys hM rfl
  rw [Nat.sub_zero] at h1
  have ha1 : st1.db.albums = mkAlbums cfg 0 ((lib.albumPages.take 0).flatten) 1 := by
    rw [a1]; rfl
  have hn1 : st1.db.nextAlbumId = ((lib.albumPages.take 0).flatten).length + 1 := by
    rw [n1]; rfl
  have hc1 : st1.currentCycle = 0 := by rw [c1]; rfl
  cases hD : (allAlbumDescs lib)[0]? with
  | none =>
    have hnilD : allAlbumDescs lib = [] := by
      cases hE : allAlbumDescs lib with
      | nil => rfl
      | cons x xs => rw [hE] at hD; simp at hD
    obtain ⟨F, h2, p1, p2, p3, p4⟩ :=
      album_phase_complete_none cfg lib net dl hdl hnodup 0 hnilD 0
        (0 + lib.mediaPages.length) st1 hA t1 ha1 hn1 hc1
    rw [Nat.sub_zero] at h2
    refine ⟨F, ?_, p1, p2, p3, p4, expectedTrace_cycleEnd_once lib⟩
    have hsum : ((allAlbumDescs lib).map
        (fun d => (lib.albumItems d.id).length)).sum = 0 := by
      rw [hnilD]; rfl
    rw [totalPages, hsum, Nat.add_zero,
      crawlRun_append cfg lib net dl lib.mediaPages.length
        lib.albumPages.length 0, h1]
    dsimp only
    rw [h2]
    rw [expectedTrace, hnilD, albumTrace, List.append_nil,
      List.range_eq_range', List.range_eq_range', List.append_assoc]
  | some d0 =>
    obtain ⟨st2, h2, t2, g2, a2, c2⟩ :=
      album_phase_complete_some cfg lib net dl hdl hnodup 0 d0 hD 0
        (0 + lib.mediaPages.length) st1 hA t1 ha1 hn1 hc1
    rw [Nat.sub_zero] at h2
    have hne : allAlbumDescs lib ≠ [] := by
      intro h; rw [h] at hD; exact Option.noConfusion hD
    obtain ⟨F, h3, p1, p2, p3, p4⟩ :=
      album_items_all cfg lib net dl hnet hdl 0 hK (allAlbumDescs lib) 1
        le_rfl hne (by rw [Nat.sub_self, List.drop_zero])
        (0 + lib.mediaPages.length + lib.albumPages.length) st2 t2 g2 a2 c2
    refine ⟨F, ?_, p1, p2, p3, p4, expectedTrace_cycleEnd_once lib⟩
    rw [totalPages, Nat.add_assoc,
      crawlRun_append cfg lib net dl lib.mediaPages.length _ 0, h1]
    dsimp only
    rw [crawlRun_append cfg lib net dl lib.albumPages.length _
        (0 + lib.mediaPages.length), h2]
    dsimp only
    rw [h3]
    rw [expectedTrace, List.range_eq_range', List.range_eq_range',
      List.append_assoc, List.append_assoc]

/-- Witness for C1: the full-traversal theorem evaluated on the concrete
one-media-page, one-album-page, one-album library `libW` under the
all-success transfer oracle and the never-lapsing deadline. -/
theorem c1_full_traversal_witness :
    ∃ F,
      crawlRun cfgW libW netOk dlNever (totalPages libW) 0
          (.go .media_item freshSys)
        = (.go .media_item F, expectedTrace libW) ∧
      get_user_option F.db.options "backup-stage" = some (.s "mediaitem") ∧
      get_user_option F.db.options "backup-stage-args" = none ∧
      F.currentCycle = 1 ∧
      get_user_option F.db.options "current-cycle" = some (.n 1) ∧
      (expectedTrace libW).countP
        (fun e => decide (e = PageEvent.cycleEnd)) = 1 :=
  c1_full_traversal cfgW libW netOk dlNever (fun _ => rfl) (fun _ => rfl)
    (by decide) (by decide) (by decide) (by decide)

/-- Witness for C2: token-resumption on a concrete two-page library. -/
theorem c2_token_resume_witness :
    ∃ st' fin,
      download_mediaitems_from_next_page cfgW lib2 netOk none freshSys
        = .ok st' fin ∧
      pageTok st' = (listMediaItems lib2 (pageTok freshSys)).nextPageToken ∧
      (fin = true ↔ (listMediaItems lib2 (pageTok freshSys)).nextPageToken = none) ∧
      (0 + 1 < lib2.mediaPages.length →
        pageTok st' = some (0 + 1) ∧
        (listMediaItems lib2 (pageTok st')).mediaItems = lib2.mediaPages[0 + 1]?) :=
  c2_token_resume cfgW lib2 netOk freshSys 0 (fun _ => rfl) rfl (by decide)

/-- C4: path allocation evaluated on two distinct remote items with the
same original filename `a.jpg` and the same (absent) creation month,
classified back to back with no intervening download — which is how every
page is processed, since a whole page is classified before its downloads
are dispatched.  Both items are assigned the same stored path
`other/a.jpg`: the database clause of the collision check queries the
bare candidate name while records store folder-qualified paths, so it
never matches, and the claimed `a-2.jpg` allocation and one-to-one
filename map do not hold. -/
theorem c4_filename_collision :
    (set_mediaitem cfgW freshSys itemA).1.filename = relOf ["other", "a.jpg"] ∧
    (set_mediaitem cfgW (set_mediaitem cfgW freshSys itemA).2 itemB).1.filename
      = relOf ["other", "a.jpg"] ∧
    itemA ≠ itemB ∧
    ((set_mediaitem cfgW (set_mediaitem cfgW freshSys itemA).2 itemB).2.db.mediaitems.map
        (fun r => r.filename))
      = [relOf ["other", "a.jpg"], relOf ["other", "a.jpg"]] :=
  ⟨by decide, by decide, by decide, by decide⟩

/-- C7: `download_file` evaluated at a transfer interrupted mid-copy by a
`BaseException`-only class (KeyboardInterrupt): the destination was
created by `open(filename, 'wb')`, the `except Exception:` cleanup clause
does not catch the interrupt, and the call propagates the error while the
partially written destination file still exists — contradicting the claim
that every failed transfer deletes the partial file before the error is
surfaced. -/
theorem c7_partial_file_left :
    download_file netInterrupt "url" pW [] = ([pW], .raised .baseException) ∧
    pW ∈ (download_file netInterrupt "url" pW []).1 :=
  ⟨by decide, by decide⟩

/-- C9 counterexample: under the schedule where both `run` callers
evaluate `global_crawler_lock.is_set()` before either spawned crawl
thread has executed `lock.set()`, both callers start crawl loops — two
crawl loops are active at once, refuting the at-most-one guarantee. -/
theorem c9_race_counterexample :
    activeCrawls (raceRun raceInit [.aCheck, .bCheck, .aStart, .bStart]) = 2 :=
  by decide

/-- C9 amended: when the second caller checks the lease only after the
first crawl thread has set it, that caller keeps waiting; once the first
crawl loop releases the lease, the second caller acquires it and crawls;
but the check and the set are not atomic, and a schedule in which both
callers check before either sets yields two concurrently active crawl
loops. -/
theorem c9_lease_amended :
    raceRun raceInit [.aCheck, .aStart, .bCheck] = ⟨true, .crawling, .waiting⟩ ∧
    raceRun raceInit [.aCheck, .aStart, .bCheck, .aRelease, .bCheck, .bStart]
      = ⟨true, .released, .crawling⟩ ∧
    activeCrawls (raceRun raceInit [.aCheck, .bCheck, .aStart, .bStart]) = 2 :=
  ⟨by decide, by decide, by decide⟩

/-- C5 counterexample: with the persisted stage set to the unrecognized
string `bogus`, the crawl loop does not abort: the `ValueError` fallback
silently selects MEDIA_ITEM, the first iteration processes media page 0
and the loop continues. -/
theorem c5_unrecognized_stage_counterexample :
    parseBackupStage (.s "bogus") = none ∧
    (crawlTick cfgW libW netOk dlNever 0
        (.go (initialStage stBogusStage.db.options) stBogusStage)).2
      = [.mediaPage 0] ∧
    (crawlTick cfgW libW netOk dlNever 0
        (.go (initialStage stBogusStage.db.options) stBogusStage)).1.isFailed
      = false :=
  ⟨by decide, by decide, by decide⟩

/-- C5 amended: an unrecognized persisted stage value is silently coerced
to MEDIA_ITEM and the run proceeds from the beginning; the fatal
`UnknownBackupStage` abort instead fires when the persisted stage is the
recognized member value `end`, aborting with the state untouched before
any page is processed. -/
theorem c5_stage_handling_amended :
    (∀ (opts : Opts) (v : JVal), get_user_option opts "backup-stage" = some v →
      parseBackupStage v = none → initialStage opts = .media_item) ∧
    (∀ (cfg : Config) (lib : Library) (net : Net) (dl : Nat → Bool) (st : Sys)
        (i : Nat),
      get_user_option st.db.options "backup-stage" = some (.s "end") →
      dl i = false →
      crawlTick cfg lib net dl i (.go (initialStage st.db.options) st)
        = (.failed st .unknownBackupStage, [])) := by
  constructor
  · intro opts v hv hp
    rw [initialStage, get_user_option_d, hv]
    simp [hp]
  · intro cfg lib net dl st i hv hdl
    rw [initialStage, get_user_option_d, hv]
    simp only [Option.getD, parseBackupStage, crawlTick, hdl]
    rfl

/-- Witness for the amended C5 at concrete inputs. -/
theorem c5_stage_handling_amended_witness :
    initialStage [("backup-stage", .s "bogus")] = .media_item ∧
    crawlTick cfgW libW netOk dlNever 0
        (.go (initialStage stEndStage.db.options) stEndStage)
      = (.failed stEndStage .unknownBackupStage, []) :=
  ⟨c5_stage_handling_amended.1 [("backup-stage", .s "bogus")] (.s "bogus")
      (by decide) (by decide),
   c5_stage_handling_amended.2 cfgW libW netOk dlNever stEndStage 0
      (by decide) rfl⟩

/-- C8 counterexample: a crawl run that aborts fatally (persisted stage
`end` raises `UnknownBackupStage` in the first iteration) terminates with
the process-wide crawler lock still set: `crawl` has no try/finally, so
`global_crawler_lock.clear()` on the watchdog path is skipped by the
propagating exception and the lease is never released. -/
theorem c8_lease_counterexample :
    (crawlTop cfgW libW netOk dlNever 1 stEndStage).1 = true ∧
    (crawlTop cfgW libW netOk dlNever 1 stEndStage).2.1
      = .failed stEndStage .unknownBackupStage :=
  ⟨by decide, by decide⟩

/-- C8 amended: the lease is released exactly on the watchdog-break exit
path of the crawl loop; a fatal abort propagates its exception past the
`clear()` call and leaves the lease held. -/
theorem c8_lease_release_amended :
    ∀ (cfg : Config) (lib : Library) (net : Net) (dl : Nat → Bool)
      (fuel : Nat) (st : Sys),
    (∀ st' evs,
      crawlRun cfg lib net dl fuel 0 (.go (initialStage st.db.options) st)
        = (.halted st', evs) →
      (crawlTop cfg lib net dl fuel st).1 = false) ∧
    (∀ st' e evs,
      crawlRun cfg lib net dl fuel 0 (.go (initialStage st.db.options) st)
        = (.failed st' e, evs) →
      (crawlTop cfg lib net dl fuel st).1 = true) := by
  intro cfg lib net dl fuel st
  constructor
  · intro st' evs h
    simp [crawlTop, h]
  · intro st' e evs h
    simp [crawlTop, h]

/-- Witness for the amended C8: a watchdog exit releases the lock, a
fatal abort leaves it set. -/
theorem c8_lease_release_amended_witness :
    (crawlTop cfgW libW netOk (fun _ => true) 1 freshSys).1 = false ∧
    (crawlTop cfgW libW netOk dlNever 1 stEndStage).1 = true :=
  ⟨(c8_lease_release_amended cfgW libW netOk (fun _ => true) 1 freshSys).1
      freshSys [] (by decide),
   (c8_lease_release_amended cfgW libW netOk dlNever 1 stEndStage).2
      stEndStage .unknownBackupStage [] (by decide)⟩

/-- C6 counterexample: an item in the downloadable set whose only
download is the thumbnail (`THUMBNAIL_ONLY`) and whose thumbnail fetch
answers HTTP 404: the worker re-raises the `HTTPError` (the code treats
any non-200 thumbnail status as fatal), so the 404 aborts the run instead
of being a per-item skip. -/
theorem c6_thumbnail_404_counterexample :
    diT.download_status = .thumbnail_only ∧
    (handle_mediaitem cfgW net404 [] diT).exc = some (.httpError 404) :=
  ⟨by decide, by decide⟩

/-- C6 amended: an HTTP 404 on the full item-bytes download is a per-item
skip, logged while the executor continues with the rest of the page; an
HTTP 429 there raises and aborts the run; any other non-200 status or a
transport failure there raises and aborts the run; but an HTTP 404 (like
any non-200 status) on a thumbnail download raises and aborts the run. -/
theorem c6_failure_classification_amended :
    ∀ (cfg : Config) (net : Net) (fs : FS) (di : DownloadInfo)
      (rest : List DownloadInfo),
    (di.download_status = .item_and_thumbnail →
      (net (item_url di) = .httpError 404 →
        handle_mediaitem cfg net fs di
          = ⟨fs, [item_url di], [di.original_filename ++ " - not available"], none⟩ ∧
        run_executor cfg net fs (di :: rest)
          = ⟨(run_executor cfg net fs rest).fs,
             [item_url di] ++ (run_executor cfg net fs rest).reqs,
             [di.original_filename ++ " - not available"] ++
               (run_executor cfg net fs rest).logs,
             (run_executor cfg net fs rest).exc⟩) ∧
      (net (item_url di) = .httpError 429 →
        (handle_mediaitem cfg net fs di).exc = some (.httpError 429)) ∧
      (∀ c, net (item_url di) = .httpError c → c ≠ 200 → c ≠ 404 → c ≠ 429 →
        (handle_mediaitem cfg net fs di).exc = some (.httpError c)) ∧
      (∀ e, net (item_url di) = .connectFail e ∨ net (item_url di) = .bodyFail e →
        (handle_mediaitem cfg net fs di).exc = some (.raisedExc e))) ∧
    (di.download_status = .thumbnail_only →
      ∀ c, net (thumb_url di) = .httpError c → c ≠ 200 →
        (handle_mediaitem cfg net fs di).exc = some (.httpError c)) := by
  intro cfg net fs di rest
  constructor
  · intro hst
    have hu : handle_mediaitem cfg net fs di
        = (let url := item_url di
           let full_filename := abspath cfg.cwd (pjoin (userRoot cfg) di.filename)
           let r := download_file net url full_filename fs
           match r.2 with
           | .ret s =>
             if s = 404 then ⟨r.1, [url], [di.original_filename ++ " - not available"], none⟩
             else if s = 429 then ⟨r.1, [url], [rateLimitMsg], some (.httpError 429)⟩
             else if s ≠ 200 then ⟨r.1, [url], [], some (.httpError s)⟩
             else
               handle_thumbnail_step cfg net di r.1 [url]
                 [di.original_filename ++ " - file downloaded"]
           | .raised e => ⟨r.1, [url], [], some (.raisedExc e)⟩) := by
      unfold handle_mediaitem
      rw [hst]
      exact rfl
    refine ⟨?_, ?_, ?_, ?_⟩
    · intro h404
      have he : handle_mediaitem cfg net fs di
          = ⟨fs, [item_url di], [di.original_filename ++ " - not available"], none⟩ := by
        rw [hu]
        dsimp only
        rw [download_file, h404]
        exact rfl
      refine ⟨he, ?_⟩
      simp only [run_executor]
      rw [he]
    · intro h429
      rw [hu]
      dsimp only
      rw [download_file, h429]
      exact rfl
    · intro c hc h200 h404 h429
      rw [hu]
      dsimp only
      rw [download_file, hc]
      dsimp only
      rw [if_neg h404, if_neg h429, if_pos h200]
    · intro e he
      rcases he with h | h <;>
        · rw [hu]
          dsimp only
          rw [download_file, h]
          cases e <;> exact rfl
  · intro hst c hc h200
    have hu : handle_mediaitem cfg net fs di
        = handle_thumbnail_step cfg net di fs [] [] := by
      unfold handle_mediaitem
      rw [hst]
      exact rfl
    rw [hu, handle_thumbnail_step]
    rw [download_file, hc]
    dsimp only
    rw [if_pos h200]

/-- Witness for the amended C6 at concrete items and oracles. -/
theorem c6_failure_classification_amended_witness :
    handle_mediaitem cfgW net404 [] diF
      = ⟨[], [item_url diF], [diF.original_filename ++ " - not available"], none⟩ ∧
    (handle_mediaitem cfgW net429 [] diF).exc = some (.httpError 429) ∧
    (handle_mediaitem cfgW net500 [] diF).exc = some (.httpError 500) ∧
    (handle_mediaitem cfgW netConn [] diF).exc = some (.raisedExc .exception) ∧
    (handle_mediaitem cfgW net404 [] diT).exc = some (.httpError 404) :=
  ⟨(((c6_failure_classification_amended cfgW net404 [] diF []).1 rfl).1 rfl).1,
   ((c6_failure_classification_amended cfgW net429 [] diF []).1 rfl).2.1 rfl,
   ((c6_failure_classification_amended cfgW net500 [] diF []).1 rfl).2.2.1 500 rfl
     (by decide) (by decide) (by decide),
   ((c6_failure_classification_amended cfgW netConn [] diF []).1 rfl).2.2.2
     .exception (Or.inl rfl),
   (c6_failure_classification_amended cfgW net404 [] diT []).2 rfl 404 rfl (by decide)⟩

theorem find_uid_map_tl (l : List MediaRec) (uid : Nat) (u : String) (i : Nat)
    (th : PPath) (ls : Nat) :
    (l.map (fun r => if r.id = i then { r with thumbnail := th, last_seen := ls }
        else r)).find? (fun r => decide (r.user_id = uid ∧ r.mediaitem_uid = u))
      = (l.find? (fun r => decide (r.user_id = uid ∧ r.mediaitem_uid = u))).map
          (fun r => if r.id = i then { r with thumbnail := th, last_seen := ls }
            else r) := by
  have hpe : ((fun r => decide (r.user_id = uid ∧ r.mediaitem_uid = u)) ∘
      (fun r : MediaRec =>
        if r.id = i then { r with thumbnail := th, last_seen := ls } else r))
      = (fun r : MediaRec => decide (r.user_id = uid ∧ r.mediaitem_uid = u)) := by
    funext r
    by_cases h : r.id = i <;> simp [h]
  rw [List.find?_map, hpe]

/-- On a fully downloaded unchanged item, `set_mediaitem` reports
ALREADY_DOWNLOADED and only refreshes the row (thumbnail value unchanged,
last_seen set to the current cycle). -/
theorem set_mediaitem_downloaded (cfg : Config) (st : Sys) (item : Item)
    (m : MediaRec) (hcwd : cfg.cwd.abs = true)
    (hm : get_user_mediaitem_by_uid st.db cfg.userId item.id = some m)
    (hfn : m.filename ≠ relOf []) (hth : m.thumbnail ≠ relOf [])
    (hf : abspath cfg.cwd (pjoin (userRoot cfg) m.filename) ∈ st.fs)
    (ht : abspath cfg.cwd (pjoin (pjoin (userRoot cfg) (relOf [THUMBNAILS_FOLDER]))
      m.thumbnail) ∈ st.fs)
    (hv : VideoReady item) :
    set_mediaitem cfg st item =
      ({ id := m.id, mediaitem_uid := item.id, creation_time := item.creationTime,
         item_type := itemType item.mimeType, base_url := item.baseUrl,
         filename := m.filename, original_filename := item.filename,
         thumbnail := m.thumbnail, download_status := .already_downloaded },
       { st with db := update_mediaitem_tl st.db m.id m.thumbnail st.currentCycle }) := by
  have hfe : file_exists cfg st.fs (abspath cfg.cwd (pjoin (userRoot cfg) m.filename))
      = true := by
    rw [file_exists_of_abs _ _ _ (abspath_abs_of_cwd _ _ hcwd)]
    exact decide_eq_true hf
  have hte : file_exists cfg st.fs
      (abspath cfg.cwd (pjoin (pjoin (userRoot cfg) (relOf [THUMBNAILS_FOLDER]))
        m.thumbnail)) = true := by
    rw [file_exists_of_abs _ _ _ (abspath_abs_of_cwd _ _ hcwd)]
    exact decide_eq_true ht
  unfold set_mediaitem
  dsimp only
  rw [hm]
  rw [if_neg (fun hc => hc.2 (hv hc.1))]
  dsimp only
  rw [if_neg hfn, if_neg hth]
  rw [if_neg (by rw [hfe]; exact fun hc => hc rfl)]
  rw [if_neg (by rw [hte]; exact fun hc => hc.1 rfl)]

/-- `DownloadedHyp` survives the row refresh done for another downloaded
item whose thumbnail path is itself nonempty and on disk. -/
theorem downloaded_preserved (cfg : Config) (st : Sys) (it' : Item) (i : Nat)
    (th : PPath) (ls : Nat) (hth : th ≠ relOf [])
    (htp : abspath cfg.cwd (pjoin (pjoin (userRoot cfg) (relOf [THUMBNAILS_FOLDER]))
      th) ∈ st.fs)
    (hd : DownloadedHyp cfg st it') :
    DownloadedHyp cfg { st with db := update_mediaitem_tl st.db i th ls } it' := by
  obtain ⟨m2, hm2, h1, h2, h3, h4⟩ := hd
  refine ⟨if m2.id = i then { m2 with thumbnail := th, last_seen := ls } else m2,
    ?_, ?_, ?_, ?_, ?_⟩
  · unfold get_user_mediaitem_by_uid at hm2 ⊢
    dsimp only [update_mediaitem_tl]
    rw [find_uid_map_tl, hm2]
    rfl
  · by_cases h : m2.id = i <;> simp [h, h1]
  · by_cases h : m2.id = i <;> simp [h, hth, h2]
  · by_cases h : m2.id = i <;> simp [h, h3]
  · by_cases h : m2.id = i <;> simp [h, htp, h4]

/-- A worker for an ALREADY_DOWNLOADED item only logs. -/
theorem handle_mediaitem_already (cfg : Config) (net : Net) (fs : FS)
    (di : DownloadInfo) (h : di.download_status = .already_downloaded) :
    handle_mediaitem cfg net fs di
      = ⟨fs, [], [di.original_filename ++ " - aready downloaded"], none⟩ := by
  unfold handle_mediaitem
  rw [h]
  exact rfl

/-- The executor over a page of ALREADY_DOWNLOADED items makes no request
and changes no file. -/
theorem run_executor_already (cfg : Config) (net : Net) :
    ∀ (dis : List DownloadInfo) (fs : FS),
    (∀ di ∈ dis, di.download_status = .already_downloaded) →
    (run_executor cfg net fs dis).fs = fs ∧
    (run_executor cfg net fs dis).reqs = [] ∧
    (run_executor cfg net fs dis).exc = none := by
  intro dis
  induction dis with
  | nil => exact fun fs _ => ⟨rfl, rfl, rfl⟩
  | cons di rest ih =>
    intro fs hall
    rw [run_executor,
      handle_mediaitem_already cfg net fs di (hall di (List.mem_cons_self di rest))]
    dsimp only
    obtain ⟨i1, i2, i3⟩ := ih fs (fun d hd => hall d (List.mem_cons_of_mem di hd))
    exact ⟨i1, by rw [i2]; rfl, i3⟩

/-- C3: re-classifying an unchanged, fully downloaded item set yields
ALREADY_DOWNLOADED for every item, and the subsequent download step
performs zero network requests and zero file-tree changes. -/
theorem c3_second_classification_no_io :
    ∀ (cfg : Config) (net : Net) (st : Sys) (items : List Item),
    cfg.cwd.abs = true →
    (∀ it ∈ items, DownloadedHyp cfg st it ∧ VideoReady it) →
    (∀ di ∈ (classify_page cfg none st items).2,
      di.download_status = .already_downloaded) ∧
    (classify_page cfg none st items).1.fs = st.fs ∧
    (run_executor cfg net (classify_page cfg none st items).1.fs
        (classify_page cfg none st items).2).fs
      = (classify_page cfg none st items).1.fs ∧
    (run_executor cfg net (classify_page cfg none st items).1.fs
        (classify_page cfg none st items).2).reqs = [] ∧
    (run_executor cfg net (classify_page cfg none st items).1.fs
        (classify_page cfg none st items).2).exc = none := by
  intro cfg net st items hcwd hall
  have main : ∀ (its : List Item) (s : Sys),
      (∀ it ∈ its, DownloadedHyp cfg s it ∧ VideoReady it) →
      (∀ di ∈ (classify_page cfg none s its).2,
        di.download_status = .already_downloaded) ∧
      (classify_page cfg none s its).1.fs = s.fs := by
    intro its
    induction its with
    | nil => exact fun s _ => ⟨fun di hdi => absurd hdi (List.not_mem_nil di), rfl⟩
    | cons item rest ih =>
      intro s hs
      obtain ⟨⟨m, hm, hfn, hth, hf, ht⟩, hv⟩ := hs item (List.mem_cons_self item rest)
      have hset := set_mediaitem_downloaded cfg s item m hcwd hm hfn hth hf ht hv
      simp only [classify_page, hset]
      have hrest : ∀ it ∈ rest,
          DownloadedHyp cfg
            { s with db := update_mediaitem_tl s.db m.id m.thumbnail s.currentCycle } it ∧
          VideoReady it := by
        intro it hit
        obtain ⟨hd, hv'⟩ := hs it (List.mem_cons_of_mem item hit)
        exact ⟨downloaded_preserved cfg s it m.id m.thumbnail s.currentCycle hth ht hd, hv'⟩
      obtain ⟨r1, r2⟩ := ih _ hrest
      refine ⟨?_, r2⟩
      intro di hdi
      rcases hdi with _ | ⟨_, hdi⟩
      · rfl
      · exact r1 di hdi
  obtain ⟨a1, a2⟩ := main items st hall
  obtain ⟨e1, e2, e3⟩ := run_executor_already cfg net
    (classify_page cfg none st items).2 (classify_page cfg none st items).1.fs a1
  exact ⟨a1, a2, e1, e2, e3⟩

/-- Witness for C3: the concrete downloaded state of `itemA`. -/
theorem c3_second_classification_no_io_witness :
    (∀ di ∈ (classify_page cfgW none stDownloaded [itemA]).2,
      di.download_status = .already_downloaded) ∧
    (classify_page cfgW none stDownloaded [itemA]).1.fs = stDownloaded.fs ∧
    (run_executor cfgW netOk (classify_page cfgW none stDownloaded [itemA]).1.fs
        (classify_page cfgW none stDownloaded [itemA]).2).fs
      = (classify_page cfgW none stDownloaded [itemA]).1.fs ∧
    (run_executor cfgW netOk (classify_page cfgW none stDownloaded [itemA]).1.fs
        (classify_page cfgW none stDownloaded [itemA]).2).reqs = [] ∧
    (run_executor cfgW netOk (classify_page cfgW none stDownloaded [itemA]).1.fs
        (classify_page cfgW none stDownloaded [itemA]).2).exc = none :=
  c3_second_classification_no_io cfgW netOk stDownloaded [itemA] rfl
    (fun it hit => by
      rcases hit with _ | ⟨_, h⟩
      · exact ⟨⟨mW, by decide, by decide, by decide, by decide, by decide⟩,
          fun h => absurd h (by decide)⟩
      · cases h)

/-- C10: a video item whose remote processing status is not READY is
classified NOT_READY with the machine state returned entirely unchanged —
no row is inserted or updated (in particular an existing row keeps its
last_seen cycle) — and the download step for it performs no network
request and no file change, emitting only the skip log line. -/
theorem c10_not_ready_no_effects :
    ∀ (cfg : Config) (net : Net) (fs : FS) (st : Sys) (item : Item),
    itemType item.mimeType = "video" →
    item.videoStatus ≠ some "READY" →
    (set_mediaitem cfg st item).2 = st ∧
    (set_mediaitem cfg st item).1.download_status = .not_ready ∧
    handle_mediaitem cfg net fs (set_mediaitem cfg st item).1
      = ⟨fs, [], [item.filename ++ " - not ready for downloading"], none⟩ := by
  intro cfg net fs st item h1 h2
  have hc : itemType item.mimeType = "video" ∧ ¬ item.videoStatus = some "READY" :=
    ⟨h1, h2⟩
  have hset : (set_mediaitem cfg st item)
      = ({ id := 0, mediaitem_uid := item.id, creation_time := item.creationTime,
           item_type := itemType item.mimeType, base_url := item.baseUrl,
           filename := relOf [], original_filename := item.filename,
           thumbnail := relOf [], download_status := .not_ready }, st) := by
    unfold set_mediaitem
    dsimp only
    rw [if_pos hc]
  rw [hset]
  exact ⟨rfl, rfl, rfl⟩

/-- Witness for C10 at a concrete not-ready video item. -/
theorem c10_not_ready_no_effects_witness :
    (set_mediaitem cfgW freshSys itemV).2 = freshSys ∧
    (set_mediaitem cfgW freshSys itemV).1.download_status = .not_ready ∧
    handle_mediaitem cfgW netOk [] (set_mediaitem cfgW freshSys itemV).1
      = ⟨[], [], [itemV.filename ++ " - not ready for downloading"], none⟩ :=
  c10_not_ready_no_effects cfgW netOk [] freshSys itemV (by decide) (by decide)

end GPB
